import Mathlib

/-!
Verification of the genetic-algorithm timetable generator
(`backend/ai-service/services/timetable_generation/service.py` and
`routes.py`).  Wall-clock times are represented as seconds since
midnight (the source stores `datetime.time` objects and `HH:MM:SS`
strings; both compare exactly like the second count, and the string
formatting is injective, so dictionary keys built from the strings
coincide with keys built from the second counts).  Python's global
`random` generator is modelled by an oracle: a stream of natural
numbers consumed one draw at a time; `random.randint` on an empty
range and `random.choice` of an empty sequence are the error
outcomes of the corresponding `Except` computations, mirroring the
`ValueError`/`IndexError` they raise.  Float arithmetic is modelled
exactly over `ℚ`.
-/

set_option maxRecDepth 10000

namespace TTG

/-- `Period` dataclass (service.py lines 15-25). -/
structure Period where
  day_of_week : Nat
  period_number : Nat
  start_time : Nat
  end_time : Nat
  subject_id : String
  teacher_id : Option String
  room_id : Option String
  section_id : String
  deriving DecidableEq, Repr

instance : Inhabited Period := ⟨⟨0, 0, 0, 0, "", none, none, ""⟩⟩

/-- `Constraint` dataclass (service.py lines 27-36). -/
structure Constraint where
  max_periods_per_day : Nat := 8
  max_consecutive_periods : Nat := 3
  avoid_back_to_back_subjects : Bool := true
  max_teacher_periods_per_day : Nat := 6
  max_teacher_periods_per_week : Nat := 25
  lunch_break_required : Bool := true
  min_free_periods_per_teacher : Nat := 2
  deriving DecidableEq, Repr

/-- The conflict dictionaries built by the three detection passes,
as a tagged type: the `type` and `severity` string fields of the
source dictionaries are determined by the constructor, the remaining
payload is carried as arguments. -/
inductive Conflict where
  | teacher_overlap (teacher_id : String) (first current : Period)
  | room_double_booking (room_id : String) (first current : Period)
  | max_periods_violation (section_id : String) (day : Nat) (count : Nat)
  | teacher_overwork_day (teacher_id : String) (day : Nat) (count : Nat)
  | teacher_overwork_week (teacher_id : String) (count : Nat)
  deriving DecidableEq, Repr

/-- The `severity` field of each conflict dictionary. -/
def Conflict.severity : Conflict → String
  | .teacher_overlap .. => "error"
  | .room_double_booking .. => "error"
  | .max_periods_violation .. => "warning"
  | .teacher_overwork_day .. => "warning"
  | .teacher_overwork_week .. => "warning"

/-- `TimetableSolution` dataclass (service.py lines 38-47);
`__post_init__` turns the `None` conflict default into `[]`. -/
structure TimetableSolution where
  periods : List Period
  fitness_score : ℚ := 0
  conflicts : List Conflict := []
  deriving DecidableEq, Repr

instance : Inhabited TimetableSolution := ⟨⟨[], 0, []⟩⟩

/-- A `sections` entry: `id` plus the optional `subjects` list. -/
structure SectionInfo where
  id : String
  subjects : List String := []
  deriving DecidableEq, Repr

/-- A `teachers` entry: `id`, `subjects`, `can_teach_all`. -/
structure Teacher where
  id : String
  subjects : List String := []
  can_teach_all : Bool := false
  deriving DecidableEq, Repr

/-- A `subjects` entry (only the `id` is read by the generator). -/
structure Subject where
  id : String
  deriving DecidableEq, Repr

/-- A `rooms` entry: `id` and `is_available` (default `True`). -/
structure Room where
  id : String
  is_available : Bool := true
  deriving DecidableEq, Repr

/-- The `school_timing` dictionary with the defaults applied in
`TimetableGenerator.__init__` (lines 77-83).  Times are seconds
since midnight: 28800 = 08:00:00, 54000 = 15:00:00. -/
structure SchoolTiming where
  school_days : Nat := 62
  period_duration_minutes : Nat := 45
  total_periods : Nat := 8
  start_time : Nat := 28800
  end_time : Nat := 54000
  deriving DecidableEq, Repr

/-- A `break_schedules` entry (`days` default 62, line 241). -/
structure BreakSchedule where
  days : Nat := 62
  start_time : Nat
  end_time : Nat
  deriving DecidableEq, Repr

/-- The state of a constructed `TimetableGenerator`. -/
structure Generator where
  sections : List SectionInfo
  teachers : List Teacher
  subjects : List Subject
  rooms : List Room
  school_timing : SchoolTiming
  break_schedules : List BreakSchedule
  constraints : Constraint := {}
  deriving DecidableEq, Repr

/-- `_extract_days_from_bitmask` (lines 85-91). -/
def extract_days_from_bitmask (bitmask : Nat) : List Nat :=
  let days := (List.range 7).filter fun i => bitmask.testBit i
  if days.isEmpty then [1, 2, 3, 4, 5] else days

/-- `self.school_days` computed in `__init__`. -/
def school_days (g : Generator) : List Nat :=
  extract_days_from_bitmask g.school_timing.school_days

/-- `_add_minutes` (lines 253-262): seconds arithmetic wrapping
modulo 24 hours, exactly as the hour field is reduced mod 24. -/
def add_minutes (t m : Nat) : Nat :=
  (t + m * 60) % 86400

/-- `_is_break_time` (lines 238-251). -/
def is_break_time (g : Generator) (day : Nat) (t : Nat) : Bool :=
  g.break_schedules.any fun b =>
    (extract_days_from_bitmask b.days).contains day &&
      (decide (b.start_time ≤ t) && decide (t < b.end_time))

/-! ## The random oracle -/

/-- The process-wide `random` generator, modelled as an oracle
stream of naturals together with a read position. -/
structure RState where
  stream : Nat → Nat
  pos : Nat

/-- Consume one draw from the oracle. -/
def draw (s : RState) : Nat × RState :=
  (s.stream s.pos, ⟨s.stream, s.pos + 1⟩)

/-- `random.randint(a, b)`: raises `ValueError` when `b < a`. -/
def randint (a b : Nat) (s : RState) : Except String (Nat × RState) :=
  if b < a then .error "empty range for randrange()"
  else
    let (d, s1) := draw s
    .ok (a + d % (b - a + 1), s1)

/-- `random.random() < p`, as one oracle draw. -/
def rand_event (p : ℚ) (s : RState) : Bool × RState :=
  let (d, s1) := draw s
  (decide (((d % 1000 : Nat) : ℚ) / 1000 < p), s1)

/-! ## Domain index -/

/-- The teachers eligible for a subject
(`_select_teacher_for_subject`, lines 267-270). -/
def eligible_teachers (g : Generator) (subject_id : String) : List Teacher :=
  g.teachers.filter fun t => t.subjects.contains subject_id || t.can_teach_all

/-- `_select_teacher_for_subject` (lines 264-275): `None` and no
draw when no teacher is eligible, otherwise one `random.choice`. -/
def select_teacher_for_subject (g : Generator) (subject_id : String) (s : RState) :
    Option String × RState :=
  match eligible_teachers g subject_id with
  | [] => (none, s)
  | t :: ts =>
    let (d, s1) := draw s
    (some (((t :: ts).getD (d % (ts.length + 1)) t).id), s1)

/-- The rooms with `is_available` true (line 282); when `rooms` is
empty both early-return branches of the source yield `None`. -/
def available_rooms (g : Generator) : List Room :=
  g.rooms.filter fun r => r.is_available

/-- `_select_room` (lines 277-286). -/
def select_room (g : Generator) (s : RState) : Option String × RState :=
  match available_rooms g with
  | [] => (none, s)
  | r :: rs =>
    let (d, s1) := draw s
    (some (((r :: rs).getD (d % (rs.length + 1)) r).id), s1)

/-- The subject pool of a section (lines 189-192): the section's own
list, or every subject when that list is empty. -/
def section_subject_ids (g : Generator) (sec : SectionInfo) : List String :=
  if sec.subjects.isEmpty then g.subjects.map Subject.id else sec.subjects

/-- `random.choice` over a non-empty list (raises on empty). -/
def rand_choice {α : Type} (xs : List α) (s : RState) : Except String (α × RState) :=
  match xs with
  | [] => .error "Cannot choose from an empty sequence"
  | y :: ys =>
    let (d, s1) := draw s
    .ok ((y :: ys).getD (d % (ys.length + 1)) y, s1)

/-! ## Initializer -/

/-- The inner `for _ in range(self.total_periods)` loop of
`_initialize_population` (lines 196-231) for one section and one
day: the first `Nat` argument is the remaining iteration count, then
the current `period_num` and the cursor time. -/
def init_day (g : Generator) (subject_ids : List String) (sid : String) (day : Nat) :
    Nat → Nat → Nat → RState → Except String (List Period × RState)
  | 0, _, _, s => .ok ([], s)
  | fuel + 1, period_num, cursor, s =>
    if is_break_time g day cursor then
      init_day g subject_ids sid day fuel period_num (add_minutes cursor 15) s
    else
      match rand_choice subject_ids s with
      | .error e => .error e
      | .ok (subj, s1) =>
        let (teacher, s2) := select_teacher_for_subject g subj s1
        let (room, s3) := select_room g s2
        let endT := add_minutes cursor g.school_timing.period_duration_minutes
        match init_day g subject_ids sid day fuel (period_num + 1) endT s3 with
        | .error e => .error e
        | .ok (rest, s4) =>
          .ok (⟨day, period_num, cursor, endT, subj, teacher, room, sid⟩ :: rest, s4)

/-- The `for day in self.school_days` loop (line 195). -/
def init_days (g : Generator) (subject_ids : List String) (sid : String) :
    List Nat → RState → Except String (List Period × RState)
  | [], s => .ok ([], s)
  | d :: ds, s =>
    match init_day g subject_ids sid d g.school_timing.total_periods 1
        g.school_timing.start_time s with
    | .error e => .error e
    | .ok (ps, s1) =>
      match init_days g subject_ids sid ds s1 with
      | .error e => .error e
      | .ok (rest, s2) => .ok (ps ++ rest, s2)

/-- The `for section in self.sections` loop (line 185). -/
def init_sections (g : Generator) :
    List SectionInfo → RState → Except String (List Period × RState)
  | [], s => .ok ([], s)
  | sec :: secs, s =>
    match init_days g (section_subject_ids g sec) sec.id (school_days g) s with
    | .error e => .error e
    | .ok (ps, s1) =>
      match init_sections g secs s1 with
      | .error e => .error e
      | .ok (rest, s2) => .ok (ps ++ rest, s2)

/-- `_initialize_population` (lines 177-236). -/
def initialize_population (g : Generator) :
    Nat → RState → Except String (List TimetableSolution × RState)
  | 0, s => .ok ([], s)
  | n + 1, s =>
    match init_sections g g.sections s with
    | .error e => .error e
    | .ok (ps, s1) =>
      match initialize_population g n s1 with
      | .error e => .error e
      | .ok (rest, s2) => .ok (⟨ps, 0, []⟩ :: rest, s2)

/-! ## Conflict detection -/

/-- The dictionary key `(day_of_week, start_time, end_time)` used by
both overlap detectors (lines 326 and 353). -/
def tkey (p : Period) : Nat × Nat × Nat :=
  (p.day_of_week, p.start_time, p.end_time)

/-- Lookup in the nested `teacher_schedule` / `room_schedule`
dictionaries, flattened to association lists keyed by
`(owner id, (day, start, end))`. -/
def sched_find (t : String) (k : Nat × Nat × Nat) :
    List ((String × (Nat × Nat × Nat)) × Period) → Option Period
  | [] => none
  | (e, p) :: rest => if e = (t, k) then some p else sched_find t k rest

/-- The traversal of `_detect_teacher_overlaps` (lines 317-342): a
period whose key is already recorded produces a conflict against the
first recorded period; the record itself is never overwritten. -/
def teacher_overlaps_go :
    List ((String × (Nat × Nat × Nat)) × Period) → List Period → List Conflict
  | _, [] => []
  | sched, p :: rest =>
    match p.teacher_id with
    | none => teacher_overlaps_go sched rest
    | some t =>
      match sched_find t (tkey p) sched with
      | some first => .teacher_overlap t first p :: teacher_overlaps_go sched rest
      | none => teacher_overlaps_go (((t, tkey p), p) :: sched) rest

/-- `_detect_teacher_overlaps` (lines 317-342). -/
def detect_teacher_overlaps (ps : List Period) : List Conflict :=
  teacher_overlaps_go [] ps

/-- The traversal of `_detect_room_double_bookings` (lines 344-369). -/
def room_bookings_go :
    List ((String × (Nat × Nat × Nat)) × Period) → List Period → List Conflict
  | _, [] => []
  | sched, p :: rest =>
    match p.room_id with
    | none => room_bookings_go sched rest
    | some r =>
      match sched_find r (tkey p) sched with
      | some first => .room_double_booking r first p :: room_bookings_go sched rest
      | none => room_bookings_go (((r, tkey p), p) :: sched) rest

/-- `_detect_room_double_bookings` (lines 344-369). -/
def detect_room_double_bookings (ps : List Period) : List Conflict :=
  room_bookings_go [] ps

/-- Insertion into an insertion-ordered dictionary of lists,
modelling `dict` grouping idioms such as lines 376-381. -/
def insert_group {κ : Type} [DecidableEq κ] (k : κ) (p : Period) :
    List (κ × List Period) → List (κ × List Period)
  | [] => [(k, [p])]
  | (k0, ps) :: rest =>
    if k0 = k then (k0, ps ++ [p]) :: rest else (k0, ps) :: insert_group k p rest

/-- Group a period list by a key, preserving first-seen key order
and per-key encounter order, exactly like the `dict` loops. -/
def group_by_key {κ : Type} [DecidableEq κ] (f : Period → κ) (l : List Period) :
    List (κ × List Period) :=
  l.foldl (fun acc p => insert_group (f p) p acc) []

/-- The `teacher_periods` grouping (lines 395-400): periods with a
null teacher are skipped. -/
def teacher_groups (l : List Period) : List (String × List Period) :=
  l.foldl
    (fun acc p =>
      match p.teacher_id with
      | some t => insert_group t p acc
      | none => acc) []

/-- `_detect_constraint_violations` (lines 371-430).  The per-day
teacher grouping keys on `(day_of_week, teacher_id)` in the source,
but the teacher component is constant inside each group, so the day
alone carries the key. -/
def detect_constraint_violations (g : Generator) (ps : List Period) : List Conflict :=
  let secDay := group_by_key (fun p => (p.section_id, p.day_of_week)) ps
  let maxP := secDay.filterMap fun kg =>
    if g.constraints.max_periods_per_day < kg.2.length then
      some (.max_periods_violation kg.1.1 kg.1.2 kg.2.length)
    else none
  let overwork := (teacher_groups ps).flatMap fun tg =>
    let dayGroups := group_by_key (fun p => p.day_of_week) tg.2
    (dayGroups.filterMap fun dg =>
      if g.constraints.max_teacher_periods_per_day < dg.2.length then
        some (.teacher_overwork_day tg.1 dg.1 dg.2.length)
      else none) ++
    (if g.constraints.max_teacher_periods_per_week < tg.2.length then
      [.teacher_overwork_week tg.1 tg.2.length]
    else [])
  maxP ++ overwork

/-! ## Soft scores and fitness -/

/-- The number of index-adjacent day pairs at distance exactly 1 in
a day list, in encounter order (the loop of lines 450-452). -/
def adj_pairs : List Nat → Nat
  | a :: b :: rest => (if Nat.dist a b = 1 then 1 else 0) + adj_pairs (b :: rest)
  | _ => 0

/-- The running `score -= 0.05` walk over one group's day list. -/
def dist_penalty_days : List Nat → ℚ → ℚ
  | a :: b :: rest, sc =>
    dist_penalty_days (b :: rest) (if Nat.dist a b = 1 then sc - 5/100 else sc)
  | _, sc => sc

/-- `_calculate_distribution_score` (lines 432-454). -/
def calculate_distribution_score (g : Generator) (sol : TimetableSolution) : ℚ :=
  let groups := group_by_key (fun p => (p.section_id, p.subject_id)) sol.periods
  let score := groups.foldl
    (fun sc kg =>
      if g.constraints.avoid_back_to_back_subjects then
        dist_penalty_days (kg.2.map Period.day_of_week) sc
      else sc) 1
  max 0 score

/-- `_calculate_workload_balance` (lines 456-476): population
variance of the per-teacher weekly counts, as `np.var` computes it. -/
def calculate_workload_balance (sol : TimetableSolution) : ℚ :=
  let counts := (teacher_groups sol.periods).map fun tg => (tg.2.length : ℚ)
  if counts.isEmpty then 1
  else
    let n : ℚ := counts.length
    let mean := counts.sum / n
    let variance := (counts.map fun w => (w - mean) * (w - mean)).sum / n
    1 / (1 + variance / 100)

/-- The conflict list assembled by `_calculate_fitness`
(lines 290-298): the three passes concatenated in source order. -/
def detect_conflicts (g : Generator) (sol : TimetableSolution) : List Conflict :=
  detect_teacher_overlaps sol.periods ++ detect_room_double_bookings sol.periods ++
    detect_constraint_violations g sol.periods

/-- `_calculate_fitness` (lines 288-315). -/
def calculate_fitness (g : Generator) (sol : TimetableSolution) : ℚ :=
  let conflicts := detect_conflicts g sol
  let score := (1 : ℚ) - (conflicts.length : ℚ) * (1/10)
  let score := score + calculate_distribution_score g sol * (2/10)
  let score := score + calculate_workload_balance sol * (1/10)
  max 0 (min 1 score)

/-- One evaluation: `solution.conflicts` is overwritten inside
`_calculate_fitness` and the returned score is stored by the caller. -/
def evaluate (g : Generator) (sol : TimetableSolution) : TimetableSolution :=
  { sol with
    fitness_score := calculate_fitness g sol
    conflicts := detect_conflicts g sol }

/-! ## Sorting

`population.sort(key=..., reverse=True)` is a stable descending
sort; stable sorting by a fixed key is extensionally unique, so a
stable insertion sort reproduces it exactly. -/

/-- Stable descending insertion: `x` goes before the first element
of strictly smaller fitness. -/
def insert_desc (x : TimetableSolution) :
    List TimetableSolution → List TimetableSolution
  | [] => [x]
  | y :: ys =>
    if y.fitness_score < x.fitness_score then x :: y :: ys
    else y :: insert_desc x ys

/-- Stable sort by `fitness_score`, descending. -/
def sort_by_fitness : List TimetableSolution → List TimetableSolution
  | [] => []
  | x :: xs => insert_desc x (sort_by_fitness xs)

/-! ## Variation operators -/

/-- `random.sample(population, k)`: `k` draws without replacement,
each draw picking a position in the remaining pool. -/
def sample_solutions :
    Nat → List TimetableSolution → RState → List TimetableSolution × RState
  | 0, _, s => ([], s)
  | _ + 1, [], s => ([], s)
  | k + 1, x :: xs, s =>
    let pool := x :: xs
    let (d, s1) := draw s
    let i := d % pool.length
    let (rest, s2) := sample_solutions k (pool.eraseIdx i) s1
    (pool.getD i x :: rest, s2)

/-- Python's `max(..., key=...)`: the first element attaining the
maximum (a later element replaces the current best only when
strictly greater). -/
def python_max : TimetableSolution → List TimetableSolution → TimetableSolution
  | best, [] => best
  | best, x :: xs =>
    python_max (if best.fitness_score < x.fitness_score then x else best) xs

/-- `_tournament_selection` (lines 478-481) with the default
tournament size 5; `max` of an empty sample raises. -/
def tournament_selection (pop : List TimetableSolution) (s : RState) :
    Except String (TimetableSolution × RState) :=
  let (tour, s1) := sample_solutions (min 5 pop.length) pop s
  match tour with
  | [] => .error "max() arg is an empty sequence"
  | x :: xs => .ok (python_max x xs, s1)

/-- `_crossover` (lines 483-494).  `randint 1 (m - 1)` with
truncated subtraction errors exactly when `m ≤ 1`, matching the
`ValueError` of `random.randint(1, 0)` and `random.randint(1, -1)`. -/
def crossover (p1 p2 : TimetableSolution) (s : RState) :
    Except String ((TimetableSolution × TimetableSolution) × RState) :=
  match randint 1 (min p1.periods.length p2.periods.length - 1) s with
  | .error e => .error e
  | .ok (k, s1) =>
    .ok ((⟨p1.periods.take k ++ p2.periods.drop k, 0, []⟩,
          ⟨p2.periods.take k ++ p1.periods.drop k, 0, []⟩), s1)

/-- `random.sample(range(n), 2)`: two distinct positions below `n`,
the second drawn from the remaining `n - 1` positions. -/
def sample_two_indices (n : Nat) (s : RState) :
    Except String ((Nat × Nat) × RState) :=
  if n < 2 then .error "Sample larger than population or is negative"
  else
    let (d1, s1) := draw s
    let i := d1 % n
    let (d2, s2) := draw s1
    let j0 := d2 % (n - 1)
    let j := if j0 < i then j0 else j0 + 1
    .ok ((i, j), s2)

/-- The in-place pairwise swap of line 505. -/
def swap_periods (l : List Period) (i j : Nat) : List Period :=
  (l.set i (l.getD j default)).set j (l.getD i default)

/-- The `for _ in range(num_swaps)` loop (lines 503-505). -/
def perform_swaps : Nat → List Period → RState → Except String (List Period × RState)
  | 0, l, s => .ok (l, s)
  | k + 1, l, s =>
    match sample_two_indices l.length s with
    | .error e => .error e
    | .ok ((i, j), s1) => perform_swaps k (swap_periods l i j) s1

/-- The teacher/room re-sampling loop of `_mutate` (lines 508-512):
for every period, an independent 10% chance to redraw the teacher
and an independent 10% chance to redraw the room. -/
def mutate_teachers_rooms (g : Generator) : List Period → RState → List Period × RState
  | [], s => ([], s)
  | p :: ps, s =>
    let (b1, s1) := rand_event (1/10) s
    let (t, s2) :=
      if b1 then select_teacher_for_subject g p.subject_id s1 else (p.teacher_id, s1)
    let (b2, s3) := rand_event (1/10) s2
    let (r, s4) := if b2 then select_room g s3 else (p.room_id, s3)
    let (rest, s5) := mutate_teachers_rooms g ps s4
    ({ p with teacher_id := t, room_id := r } :: rest, s5)

/-- `_mutate` (lines 496-514): deep copy, swaps only when more than
one period exists, then teacher/room re-sampling. -/
def mutate (g : Generator) (sol : TimetableSolution) (s : RState) :
    Except String (TimetableSolution × RState) :=
  if 1 < sol.periods.length then
    match randint 1 (min 5 (sol.periods.length / 2)) s with
    | .error e => .error e
    | .ok (num_swaps, s1) =>
      match perform_swaps num_swaps sol.periods s1 with
      | .error e => .error e
      | .ok (ps1, s2) =>
        let (ps2, s3) := mutate_teachers_rooms g ps1 s2
        .ok ({ sol with periods := ps2 }, s3)
  else
    let (ps2, s3) := mutate_teachers_rooms g sol.periods s
    .ok ({ sol with periods := ps2 }, s3)

/-! ## Evolutionary controller -/

/-- The caller-facing GA hyperparameters with their defaults. -/
structure GAParams where
  population_size : Nat := 100
  generations : Nat := 1000
  mutation_rate : ℚ := 1/10
  crossover_rate : ℚ := 8/10
  elite_size : Nat := 20
  deriving Repr

/-- One pass of the offspring body (lines 130-151): two tournament
selections, crossover with probability `crossover_rate` (else the
parents are deep-copied), each child mutated with probability
`mutation_rate`, then both children evaluated. -/
def make_children (g : Generator) (pp : GAParams) (pop : List TimetableSolution)
    (s : RState) : Except String ((TimetableSolution × TimetableSolution) × RState) :=
  match tournament_selection pop s with
  | .error e => .error e
  | .ok (p1, s1) =>
    match tournament_selection pop s1 with
    | .error e => .error e
    | .ok (p2, s2) =>
      let (bc, s3) := rand_event pp.crossover_rate s2
      match (if bc then crossover p1 p2 s3 else .ok ((p1, p2), s3)) with
      | .error e => .error e
      | .ok ((c1, c2), s4) =>
        let (bm1, s5) := rand_event pp.mutation_rate s4
        match (if bm1 then mutate g c1 s5 else .ok (c1, s5)) with
        | .error e => .error e
        | .ok (c1m, s6) =>
          let (bm2, s7) := rand_event pp.mutation_rate s6
          match (if bm2 then mutate g c2 s7 else .ok (c2, s7)) with
          | .error e => .error e
          | .ok (c2m, s8) => .ok ((evaluate g c1m, evaluate g c2m), s8)

/-- The `while len(new_population) < population_size` loop
(lines 130-151).  Each pass appends exactly two children, so
`population_size` passes always suffice; the fuel argument is that
bound and is never exhausted while the guard still holds. -/
def fill_offspring (g : Generator) (pp : GAParams) (pop : List TimetableSolution) :
    Nat → List TimetableSolution → RState →
      Except String (List TimetableSolution × RState)
  | 0, newPop, s => .ok (newPop, s)
  | fuel + 1, newPop, s =>
    if newPop.length < pp.population_size then
      match make_children g pp pop s with
      | .error e => .error e
      | .ok ((c1, c2), s1) => fill_offspring g pp pop fuel (newPop ++ [c1, c2]) s1
    else .ok (newPop, s)

/-- One generation (lines 122-157): elite slice, offspring fill,
trim to `population_size`, sort descending. -/
def generation_step (g : Generator) (pp : GAParams) (pop : List TimetableSolution)
    (s : RState) : Except String (List TimetableSolution × RState) :=
  match fill_offspring g pp pop pp.population_size (pop.take pp.elite_size) s with
  | .error e => .error e
  | .ok (newPop, s1) => .ok (sort_by_fitness (newPop.take pp.population_size), s1)

/-- The generation loop with the early-stopping test of line 167
(`best fitness ≥ 0.95` and no conflicts). -/
def generate_loop (g : Generator) (pp : GAParams) :
    Nat → List TimetableSolution → RState →
      Except String (List TimetableSolution × RState)
  | 0, pop, s => .ok (pop, s)
  | n + 1, pop, s =>
    match generation_step g pp pop s with
    | .error e => .error e
    | .ok (pop1, s1) =>
      match pop1 with
      | [] => .error "list index out of range"
      | best :: _ =>
        if (95/100 : ℚ) ≤ best.fitness_score ∧ best.conflicts = [] then .ok (pop1, s1)
        else generate_loop g pp n pop1 s1

/-- `TimetableGenerator.generate` (lines 98-175). -/
def generate (g : Generator) (pp : GAParams) (s : RState) :
    Except String (TimetableSolution × RState) :=
  match initialize_population g pp.population_size s with
  | .error e => .error e
  | .ok (pop0, s1) =>
    let pop1 := sort_by_fitness (pop0.map (evaluate g))
    match generate_loop g pp pp.generations pop1 s1 with
    | .error e => .error e
    | .ok (popF, s2) =>
      match popF with
      | [] => .error "list index out of range"
      | best :: _ => .ok (best, s2)

/-! ## The `/generate` route (routes.py lines 10-92) -/

/-- The parsed request body of `POST /generate`, with the defaults
`data.get(...)` applies: absent collections are empty lists and an
absent or empty `school_timing` dictionary is `none`. -/
structure GenerateRequest where
  sections : List SectionInfo := []
  teachers : List Teacher := []
  subjects : List Subject := []
  rooms : List Room := []
  school_timing : Option SchoolTiming := none
  break_schedules : List BreakSchedule := []
  constraints : Constraint := {}
  ga : GAParams := {}

/-- The three observable outcomes of the route: a 400 response with
an error message, a 500 response (the `except` handler), or a 200
response carrying the best solution. -/
inductive RouteResult where
  | client_error (msg : String)
  | server_error (msg : String)
  | success (best : TimetableSolution)
  deriving Repr

/-- `generate_timetable` (routes.py lines 12-92): the validation
chain of lines 44-52, then the generator run; an exception inside
the run surfaces as a 500. -/
def generate_timetable (r : GenerateRequest) (s : RState) : RouteResult :=
  if r.sections.isEmpty then .client_error "sections are required"
  else if r.teachers.isEmpty then .client_error "teachers are required"
  else if r.subjects.isEmpty then .client_error "subjects are required"
  else
    match r.school_timing with
    | none => .client_error "school_timing is required"
    | some st =>
      match generate
          ⟨r.sections, r.teachers, r.subjects, r.rooms, st, r.break_schedules,
            r.constraints⟩ r.ga s with
      | .error e => .server_error e
      | .ok (best, _) => .success best

/-! ## Helpers for closed statements -/

/-- The solution returned by `generate`, when it returns one. -/
def run_best (g : Generator) (pp : GAParams) (stream : Nat → Nat) :
    Option TimetableSolution :=
  match generate g pp ⟨stream, 0⟩ with
  | .ok (b, _) => some b
  | .error _ => none

/-- The error message `generate` aborts with, when it aborts. -/
def run_error_msg (g : Generator) (pp : GAParams) (stream : Nat → Nat) :
    Option String :=
  match generate g pp ⟨stream, 0⟩ with
  | .ok _ => none
  | .error e => some e

/-! ## Predicates used by the claims -/

/-- The six non-mutable attributes of a period: everything except
`teacher_id` and `room_id`. -/
def proj6 (p : Period) : Nat × Nat × Nat × Nat × String × String :=
  (p.day_of_week, p.period_number, p.start_time, p.end_time, p.subject_id, p.section_id)

/-- A freshly drawn teacher: either a member of the subject's
eligible list, or null because that list is empty. -/
def resampled_teacher_ok (g : Generator) (q : Period) : Prop :=
  (∃ t ∈ eligible_teachers g q.subject_id, q.teacher_id = some t.id) ∨
    (eligible_teachers g q.subject_id = [] ∧ q.teacher_id = none)

/-- A freshly drawn room: either an available room, or null because
none is available. -/
def resampled_room_ok (g : Generator) (q : Period) : Prop :=
  (∃ r ∈ available_rooms g, q.room_id = some r.id) ∨
    (available_rooms g = [] ∧ q.room_id = none)

/-- The mutation contract exactly as the claim states it: size and
slot projections preserved, and any period whose teacher is not one
of the input teachers must carry a teacher from the subject's
eligible list. -/
def mutate_claim_holds (g : Generator) (sol out : TimetableSolution) : Prop :=
  out.periods.length = sol.periods.length ∧
    (out.periods.map proj6).Perm (sol.periods.map proj6) ∧
    ∀ q ∈ out.periods,
      q.teacher_id ∈ sol.periods.map Period.teacher_id ∨
        ∃ t ∈ eligible_teachers g q.subject_id, q.teacher_id = some t.id

/-- Selector for teacher-overlap conflicts on a given teacher and
`(day, start, end)` key (the offending, later period carries the
key). -/
def is_teacher_overlap_for (t : String) (k : Nat × Nat × Nat) : Conflict → Bool
  | .teacher_overlap t2 _ cur => decide (t2 = t) && decide (tkey cur = k)
  | _ => false

/-- Selector for room-double-booking conflicts on a given room and
key. -/
def is_room_booking_for (r : String) (k : Nat × Nat × Nat) : Conflict → Bool
  | .room_double_booking r2 _ cur => decide (r2 = r) && decide (tkey cur = k)
  | _ => false

/-- The number of periods assigned to teacher `t` in slot `k`. -/
def count_teacher_key (ps : List Period) (t : String) (k : Nat × Nat × Nat) : Nat :=
  ps.countP fun p => decide (p.teacher_id = some t) && decide (tkey p = k)

/-- The number of periods assigned to room `r` in slot `k`. -/
def count_room_key (ps : List Period) (r : String) (k : Nat × Nat × Nat) : Nat :=
  ps.countP fun p => decide (p.room_id = some r) && decide (tkey p = k)

/-- Total adjacency count of the distribution pass: for each
(section, subject) group, the number of index-adjacent day pairs at
distance 1, in the order the periods appear in the solution. -/
def total_adj_pairs (sol : TimetableSolution) : Nat :=
  ((group_by_key (fun p => (p.section_id, p.subject_id)) sol.periods).map
    fun kg => adj_pairs (kg.2.map Period.day_of_week)).sum

/-- Ascending insertion for day lists. -/
def insert_nat_asc (x : Nat) : List Nat → List Nat
  | [] => [x]
  | y :: ys => if x ≤ y then x :: y :: ys else y :: insert_nat_asc x ys

/-- Ascending sort for day lists. -/
def sort_nat_asc : List Nat → List Nat
  | [] => []
  | x :: xs => insert_nat_asc x (sort_nat_asc xs)

/-- Modelled from the spec wording of the distribution score, for
comparison with the source: identical to
`calculate_distribution_score` except that each group's day list is
sorted ascending before adjacent pairs are counted. -/
def distribution_score_sorted_days (g : Generator) (sol : TimetableSolution) : ℚ :=
  let groups := group_by_key (fun p => (p.section_id, p.subject_id)) sol.periods
  let score := groups.foldl
    (fun sc kg =>
      if g.constraints.avoid_back_to_back_subjects then
        dist_penalty_days (sort_nat_asc (kg.2.map Period.day_of_week)) sc
      else sc) 1
  max 0 score

/-- The window invariant claimed for generated periods, restricted
to the part the code maintains: the period starts no earlier than
the school day and strictly before it ends. -/
def PeriodWindowOK (g : Generator) (p : Period) : Prop :=
  g.school_timing.start_time ≤ p.start_time ∧ p.start_time < p.end_time

/-- All periods of a solution satisfy the window invariant. -/
def SolutionWindowOK (g : Generator) (sol : TimetableSolution) : Prop :=
  ∀ p ∈ sol.periods, PeriodWindowOK g p

/-- All solutions of a population satisfy the window invariant. -/
def PopWindowOK (g : Generator) (pop : List TimetableSolution) : Prop :=
  ∀ sol ∈ pop, SolutionWindowOK g sol

/-! ## Concrete inputs used by counterexamples and witnesses -/

/-- The minimal feasible request of spec scenario 1: one section,
one subject, one teacher, one room, Monday only, a single
45-minute period from 08:00. -/
def g_min : Generator :=
  { sections := [⟨"S1", ["MATH"]⟩]
    teachers := [⟨"T1", ["MATH"], false⟩]
    subjects := [⟨"MATH"⟩]
    rooms := [⟨"R1", true⟩]
    school_timing := { school_days := 2, period_duration_minutes := 45,
                       total_periods := 1, start_time := 28800, end_time := 54000 }
    break_schedules := [] }

/-- Small GA parameters that still exercise the offspring loop. -/
def pp_small : GAParams :=
  { population_size := 2, generations := 1, mutation_rate := 1/10,
    crossover_rate := 8/10, elite_size := 1 }

/-- Degenerate GA parameters: a population of one elite individual,
so the offspring loop never runs. -/
def pp_one : GAParams :=
  { population_size := 1, generations := 1, mutation_rate := 1/10,
    crossover_rate := 8/10, elite_size := 1 }

/-- A timing whose school day ends at 09:00 but whose two 45-minute
periods run until 09:30: the initializer never checks `end_time`. -/
def g_c3 : Generator :=
  { sections := [⟨"S1", ["MATH"]⟩]
    teachers := [⟨"T1", ["MATH"], false⟩]
    subjects := [⟨"MATH"⟩]
    rooms := [⟨"R1", true⟩]
    school_timing := { school_days := 2, period_duration_minutes := 45,
                       total_periods := 2, start_time := 28800, end_time := 32400 }
    break_schedules := [] }

/-- The solution `generate` returns on `g_c3` (population of one,
all random choices forced over singleton pools): two periods, the
second ending at 09:30, past the 09:00 school end. -/
def best_c3 : TimetableSolution :=
  ⟨[⟨1, 1, 28800, 31500, "MATH", some "T1", some "R1", "S1"⟩,
    ⟨1, 2, 31500, 34200, "MATH", some "T1", some "R1", "S1"⟩], 1, []⟩

/-- The break-skip scenario of spec scenario 3: three periods of 45
minutes from 08:00 with a Monday break 08:45-09:00. -/
def g_break : Generator :=
  { sections := [⟨"S1", ["MATH"]⟩]
    teachers := [⟨"T1", ["MATH"], false⟩]
    subjects := [⟨"MATH"⟩]
    rooms := [⟨"R1", true⟩]
    school_timing := { school_days := 2, period_duration_minutes := 45,
                       total_periods := 3, start_time := 28800, end_time := 54000 }
    break_schedules := [⟨2, 31500, 32400⟩] }

/-- The period list of the first (and only) solution produced by
one call of the initializer. -/
def init_first_periods (g : Generator) (stream : Nat → Nat) : List Period :=
  match initialize_population g 1 ⟨stream, 0⟩ with
  | .ok (sol :: _, _) => sol.periods
  | _ => []

/-- Three periods of one teacher in the same slot. -/
def ps_c4 : List Period :=
  [⟨1, 1, 28800, 31500, "MATH", some "T1", some "R1", "SA"⟩,
   ⟨1, 1, 28800, 31500, "ENG", some "T1", some "R2", "SB"⟩,
   ⟨1, 1, 28800, 31500, "SCI", some "T1", some "R3", "SC"⟩]

/-- A generator with empty collections (constraints defaulted). -/
def g_empty : Generator :=
  { sections := [], teachers := [], subjects := [], rooms := [],
    school_timing := {}, break_schedules := [] }

/-- One (section, subject) pair scheduled on days 1, 3, 2 in that
period order: the sorted day list has two adjacent pairs, the
traversal order only one. -/
def sol_c6 : TimetableSolution :=
  ⟨[⟨1, 1, 100, 200, "X", some "T1", some "R1", "S1"⟩,
    ⟨3, 1, 100, 200, "X", some "T1", some "R1", "S1"⟩,
    ⟨2, 1, 100, 200, "X", some "T1", some "R1", "S1"⟩], 0, []⟩

/-- A two-period solution staffed by a teacher who is not in the
(empty) teacher index: re-sampling must drop to null. -/
def sol_c8 : TimetableSolution :=
  ⟨[⟨1, 1, 100, 200, "X", some "T1", some "R1", "S1"⟩,
    ⟨2, 2, 300, 400, "X", some "T1", some "R1", "S1"⟩], 0, []⟩

/-- The solution `_mutate` produces from `sol_c8` under the
all-zeros oracle (one swap of the two periods, then every 10% event
fires and both re-samples fall back to null). -/
def out_c8 : TimetableSolution :=
  ⟨[⟨2, 2, 300, 400, "X", none, none, "S1"⟩,
    ⟨1, 1, 100, 200, "X", none, none, "S1"⟩], 0, []⟩

/-- Two-period solutions for the crossover witness. -/
def sol_two_a : TimetableSolution :=
  ⟨[⟨1, 1, 100, 200, "A", some "T1", some "R1", "S1"⟩,
    ⟨1, 2, 200, 300, "B", some "T1", some "R1", "S1"⟩], 0, []⟩

/-- Second two-period parent for the crossover witness. -/
def sol_two_b : TimetableSolution :=
  ⟨[⟨2, 1, 100, 200, "C", some "T2", some "R2", "S2"⟩,
    ⟨2, 2, 200, 300, "D", some "T2", some "R2", "S2"⟩], 0, []⟩

/-- A single-period solution (the crossover error case). -/
def sol_one : TimetableSolution :=
  ⟨[⟨1, 1, 100, 200, "A", some "T1", some "R1", "S1"⟩], 0, []⟩

/-- An evaluated one-period solution, used as a one-element sorted
population for the elitism witness. -/
def sol_w7 : TimetableSolution :=
  ⟨[⟨1, 1, 28800, 31500, "MATH", some "T1", some "R1", "S1"⟩], 1, []⟩

/-- One-element population for the elitism witness. -/
def pop_w7 : List TimetableSolution := [sol_w7]

/-- The generation step taken from `pop_w7`. -/
def step_w7 : Except String (List TimetableSolution × RState) :=
  generation_step g_min pp_one pop_w7 ⟨fun _ => 0, 0⟩

/-- The population produced by `step_w7`. -/
def step_w7_pop : List TimetableSolution :=
  match step_w7 with
  | .ok (p, _) => p
  | .error _ => []

/-- The oracle state after `step_w7`. -/
def step_w7_state : RState :=
  match step_w7 with
  | .ok (_, s) => s
  | .error _ => ⟨fun _ => 0, 0⟩

/-- The solution `generate` returns on `g_min` with a population of
one: the single minimal period, fitness 1. -/
def best_w3 : TimetableSolution :=
  ⟨[⟨1, 1, 28800, 31500, "MATH", some "T1", some "R1", "S1"⟩], 1, []⟩

/-! # Theorems -/

/-- C1: for every solution, the fitness evaluator returns
`clamp(1.0 - 0.1*|conflicts| + 0.2*distribution + 0.1*balance, 0, 1)`
where `|conflicts|` is exactly the number of conflicts found by the
three detection passes on that evaluation; hence the fitness always
lies in `[0, 1]`, and a solution with an empty period list gets
fitness `1.0`. -/
theorem fitness_is_clamped_formula (g : Generator) (sol : TimetableSolution) :
    calculate_fitness g sol =
      max 0 (min 1 ((1 : ℚ) - (1/10) * ((detect_conflicts g sol).length : ℚ)
        + (2/10) * calculate_distribution_score g sol
        + (1/10) * calculate_workload_balance sol)) ∧
    0 ≤ calculate_fitness g sol ∧ calculate_fitness g sol ≤ 1 ∧
    (sol.periods = [] → calculate_fitness g sol = 1) := by
  refine ⟨?_, ?_, ?_, ?_⟩
  · unfold calculate_fitness
    ring_nf
  · exact le_max_left 0 _
  · unfold calculate_fitness
    exact max_le (by norm_num) (min_le_left 1 _)
  · intro hempty
    rcases sol with ⟨ps, f, c⟩
    simp only at hempty
    subst hempty
    norm_num [calculate_fitness, detect_conflicts, detect_teacher_overlaps,
      detect_room_double_bookings, detect_constraint_violations,
      teacher_overlaps_go, room_bookings_go, group_by_key, teacher_groups,
      calculate_distribution_score, calculate_workload_balance]

/-- Witness for C1 at a concrete empty solution. -/
theorem fitness_is_clamped_formula_witness :
    calculate_fitness g_empty ⟨[], 0, []⟩ = 1 :=
  (fitness_is_clamped_formula g_empty ⟨[], 0, []⟩).2.2.2 rfl

/-- C2 (code bug): on the minimal feasible input, any oracle that
lets the offspring loop take the crossover branch makes
`random.randint(1, 0)` raise, so `generate` aborts instead of
returning the expected one-period timetable; an oracle that avoids
crossover and mutation does return exactly the claimed period with
fitness 1.0 and zero conflicts, confirming the scenario is otherwise
as specified. -/
theorem minimal_feasible_crossover_crash :
    run_error_msg g_min pp_small (fun _ => 0) = some "empty range for randrange()" ∧
    run_best g_min pp_small (fun _ => 999) =
      some ⟨[⟨1, 1, 28800, 31500, "MATH", some "T1", some "R1", "S1"⟩], 1, []⟩ := by
  constructor
  · norm_num [run_error_msg, generate, generate_loop, generation_step, fill_offspring,
      make_children, tournament_selection, sample_solutions, python_max, crossover,
      randint, rand_event, draw, mutate, initialize_population, init_sections, init_days,
      init_day, section_subject_ids, school_days, g_min, pp_small,
      extract_days_from_bitmask, is_break_time, add_minutes, rand_choice,
      select_teacher_for_subject, select_room, eligible_teachers, available_rooms,
      evaluate, calculate_fitness, detect_conflicts, detect_teacher_overlaps,
      detect_room_double_bookings, detect_constraint_violations, teacher_overlaps_go,
      room_bookings_go, group_by_key, insert_group, teacher_groups,
      calculate_distribution_score, calculate_workload_balance, dist_penalty_days,
      sort_by_fitness, insert_desc, sched_find, tkey, max_def, min_def]
  · norm_num [run_best, generate, generate_loop, generation_step, fill_offspring,
      make_children, tournament_selection, sample_solutions, python_max, crossover,
      randint, rand_event, draw, mutate, initialize_population, init_sections, init_days,
      init_day, section_subject_ids, school_days, g_min, pp_small,
      extract_days_from_bitmask, is_break_time, add_minutes, rand_choice,
      select_teacher_for_subject, select_room, eligible_teachers, available_rooms,
      evaluate, calculate_fitness, detect_conflicts, detect_teacher_overlaps,
      detect_room_double_bookings, detect_constraint_violations, teacher_overlaps_go,
      room_bookings_go, group_by_key, insert_group, teacher_groups,
      calculate_distribution_score, calculate_workload_balance, dist_penalty_days,
      sort_by_fitness, insert_desc, sched_find, tkey, max_def, min_def]

/-- C9: the `/generate` route answers 400 with a message naming the
missing field exactly when `sections`, `teachers`, `subjects` or
`school_timing` is empty or absent, and in that case no generator
run is consulted; otherwise the outcome is the generator's. -/
theorem generate_route_validation (r : GenerateRequest) (s : RState) :
    ((∃ msg, generate_timetable r s = .client_error msg) ↔
      (r.sections = [] ∨ r.teachers = [] ∨ r.subjects = [] ∨
        r.school_timing = none)) ∧
    (r.sections = [] → generate_timetable r s = .client_error "sections are required") ∧
    (r.sections ≠ [] → r.teachers = [] →
      generate_timetable r s = .client_error "teachers are required") ∧
    (r.sections ≠ [] → r.teachers ≠ [] → r.subjects = [] →
      generate_timetable r s = .client_error "subjects are required") ∧
    (r.sections ≠ [] → r.teachers ≠ [] → r.subjects ≠ [] → r.school_timing = none →
      generate_timetable r s = .client_error "school_timing is required") := by
  rcases r with ⟨sec, tea, sub, roo, stO, br, co, ga⟩
  unfold generate_timetable
  rcases sec with _ | ⟨s1, sec⟩
  · simp
  rcases tea with _ | ⟨t1, tea⟩
  · simp
  rcases sub with _ | ⟨u1, sub⟩
  · simp
  rcases stO with _ | st
  · simp
  rcases hgen : generate ⟨s1 :: sec, t1 :: tea, u1 :: sub, roo, st, br, co⟩ ga s with
    e | ⟨b, s2⟩ <;> simp [hgen]

/-- Witness for C9: a request with no sections is refused with the
field named. -/
theorem generate_route_validation_witness :
    (∃ msg, generate_timetable {} ⟨fun _ => 0, 0⟩ = .client_error msg) ∧
    generate_timetable {} ⟨fun _ => 0, 0⟩ = .client_error "sections are required" :=
  ⟨(generate_route_validation {} ⟨fun _ => 0, 0⟩).1.2 (Or.inl rfl),
   (generate_route_validation {} ⟨fun _ => 0, 0⟩).2.1 rfl⟩

/-- C10: crossover is total exactly on parents with at least two
periods each: it then returns `A[:k] ++ B[k:]` (length `|B|`) and
`B[:k] ++ A[k:]` (length `|A|`) for some `k ∈ [1, min-1]`; with a
parent of at most one period the random draw over `[1, 0]` raises,
and the abort propagates out of the whole `generate` run (third
conjunct: the minimal one-period-per-parent configuration). -/
theorem crossover_total_iff (p1 p2 : TimetableSolution) (s : RState) :
    (2 ≤ min p1.periods.length p2.periods.length →
      ∃ k s1, crossover p1 p2 s =
          .ok ((⟨p1.periods.take k ++ p2.periods.drop k, 0, []⟩,
                ⟨p2.periods.take k ++ p1.periods.drop k, 0, []⟩), s1) ∧
        1 ≤ k ∧ k ≤ min p1.periods.length p2.periods.length - 1 ∧
        (p1.periods.take k ++ p2.periods.drop k).length = p2.periods.length ∧
        (p2.periods.take k ++ p1.periods.drop k).length = p1.periods.length) ∧
    (min p1.periods.length p2.periods.length ≤ 1 →
      crossover p1 p2 s = .error "empty range for randrange()") ∧
    run_error_msg g_min pp_small (fun _ => 0) = some "empty range for randrange()" := by
  refine ⟨?_, ?_, by
    norm_num [run_error_msg, generate, generate_loop, generation_step, fill_offspring,
      make_children, tournament_selection, sample_solutions, python_max, crossover,
      randint, rand_event, draw, mutate, initialize_population, init_sections, init_days,
      init_day, section_subject_ids, school_days, g_min, pp_small,
      extract_days_from_bitmask, is_break_time, add_minutes, rand_choice,
      select_teacher_for_subject, select_room, eligible_teachers, available_rooms,
      evaluate, calculate_fitness, detect_conflicts, detect_teacher_overlaps,
      detect_room_double_bookings, detect_constraint_violations, teacher_overlaps_go,
      room_bookings_go, group_by_key, insert_group, teacher_groups,
      calculate_distribution_score, calculate_workload_balance, dist_penalty_days,
      sort_by_fitness, insert_desc, sched_find, tkey, max_def, min_def]⟩
  · intro hmin
    set m := min p1.periods.length p2.periods.length with hm
    have h1 : m ≤ p1.periods.length := by rw [hm]; exact min_le_left _ _
    have h2 : m ≤ p2.periods.length := by rw [hm]; exact min_le_right _ _
    have heq : m - 1 - 1 + 1 = m - 1 := by omega
    have hnot : ¬ (m - 1 < 1) := by omega
    have hlt : (draw s).1 % (m - 1) < m - 1 := Nat.mod_lt _ (by omega)
    refine ⟨1 + (draw s).1 % (m - 1), (draw s).2, ?_, by omega, by omega, ?_, ?_⟩
    · simp only [crossover, randint, ← hm, hnot, if_false, heq]
    · simp only [List.length_append, List.length_take, List.length_drop]
      omega
    · simp only [List.length_append, List.length_take, List.length_drop]
      omega
  · intro hmin
    have : min p1.periods.length p2.periods.length - 1 < 1 := by omega
    simp only [crossover, randint, this, if_true]

/-- C5 counterexample: with start 08:00, three 45-minute period
slots and a Monday break 08:45-09:00, the initializer emits two
Monday periods (08:00-08:45 and 09:00-09:45), not the three the
claim expects: the break skip consumes one of the three loop
iterations. -/
theorem break_skip_counterexample :
    (init_first_periods g_break (fun _ => 0)).map
        (fun p => (p.start_time, p.end_time)) =
      [(28800, 31500), (32400, 35100)] ∧
    (init_first_periods g_break (fun _ => 0)).length ≠ 3 := by
  constructor <;> decide

/-- C5 amended: under that configuration the initializer emits
exactly two Monday periods, 08:00-08:45 and 09:00-09:45, for every
random oracle: the skipped break window costs one of the
`total_periods` iterations, so the third period is never laid. -/
theorem break_skip_two_periods (s : RState) :
    ∃ s1, initialize_population g_break 1 s =
      .ok ([⟨[⟨1, 1, 28800, 31500, "MATH", some "T1", some "R1", "S1"⟩,
              ⟨1, 2, 32400, 35100, "MATH", some "T1", some "R1", "S1"⟩], 0, []⟩], s1) := by
  have h1 : is_break_time g_break 1 28800 = false := by decide
  have h2 : is_break_time g_break 1 31500 = true := by decide
  have h3 : is_break_time g_break 1 32400 = false := by decide
  have hsec : g_break.sections = [⟨"S1", ["MATH"]⟩] := rfl
  have hdays : school_days g_break = [1] := by decide
  have hsub : section_subject_ids g_break ⟨"S1", ["MATH"]⟩ = ["MATH"] := by decide
  have htot : g_break.school_timing.total_periods = 3 := rfl
  have hst : g_break.school_timing.start_time = 28800 := rfl
  have hdur : g_break.school_timing.period_duration_minutes = 45 := rfl
  have htea : eligible_teachers g_break "MATH" = [⟨"T1", ["MATH"], false⟩] := by decide
  have hroo : available_rooms g_break = [⟨"R1", true⟩] := by decide
  have hsel : ∀ s0 : RState, select_teacher_for_subject g_break "MATH" s0 =
      (some "T1", ⟨s0.stream, s0.pos + 1⟩) := by
    intro s0
    simp [select_teacher_for_subject, htea, draw, Nat.mod_one]
  have hsro : ∀ s0 : RState, select_room g_break s0 =
      (some "R1", ⟨s0.stream, s0.pos + 1⟩) := by
    intro s0
    simp [select_room, hroo, draw, Nat.mod_one]
  have hch : ∀ s0 : RState, rand_choice ["MATH"] s0 =
      .ok ("MATH", ⟨s0.stream, s0.pos + 1⟩) := by
    intro s0
    simp [rand_choice, draw, Nat.mod_one]
  refine ⟨⟨s.stream, s.pos + 6⟩, ?_⟩
  simp only [initialize_population, init_sections, init_days, init_day, hsec, hdays,
    hsub, htot, hst, hdur, h1, h2, h3, add_minutes, hch, hsel, hsro]
  norm_num

/-- The running-subtraction walk over a day list equals the initial
score minus 0.05 per adjacent pair at distance 1. -/
lemma dist_penalty_days_eq (l : List Nat) :
    ∀ sc : ℚ, dist_penalty_days l sc = sc - (adj_pairs l : ℚ) * (5/100) := by
  induction l with
  | nil => intro sc; simp [dist_penalty_days, adj_pairs]
  | cons a t ih =>
    intro sc
    cases t with
    | nil => simp [dist_penalty_days, adj_pairs]
    | cons b rest =>
      simp only [dist_penalty_days, adj_pairs]
      rw [ih]
      split <;> push_cast <;> ring

/-- The fold of the running walk over all groups subtracts the total
adjacency count (times 0.05) from the initial score. -/
lemma dist_penalty_foldl (g : Generator)
    (groups : List ((String × String) × List Period)) :
    ∀ sc : ℚ,
      groups.foldl
        (fun sc kg =>
          if g.constraints.avoid_back_to_back_subjects then
            dist_penalty_days (kg.2.map Period.day_of_week) sc
          else sc) sc =
      sc - (if g.constraints.avoid_back_to_back_subjects then
        (((groups.map fun kg => adj_pairs (kg.2.map Period.day_of_week)).sum : Nat) : ℚ)
      else 0) * (5/100) := by
  induction groups with
  | nil => intro sc; simp
  | cons kg rest ih =>
    intro sc
    rw [List.foldl_cons, ih]
    cases h : g.constraints.avoid_back_to_back_subjects with
    | false => simp [h]
    | true =>
      simp only [h, if_true, dist_penalty_days_eq, List.map_cons, List.sum_cons]
      push_cast
      ring

/-- C6 counterexample: one (section, subject) pair on days 1, 3, 2
in period order; the source scores 0.95 (one adjacent pair in
traversal order) while the claim's sorted day list [1,2,3] would
score 0.90. -/
theorem distribution_sorted_counterexample :
    calculate_distribution_score g_empty sol_c6 = 19/20 ∧
    distribution_score_sorted_days g_empty sol_c6 = 9/10 ∧
    calculate_distribution_score g_empty sol_c6 ≠
      distribution_score_sorted_days g_empty sol_c6 := by
  refine ⟨?_, ?_, ?_⟩ <;>
    norm_num [calculate_distribution_score, distribution_score_sorted_days,
      group_by_key, insert_group, dist_penalty_days, sort_nat_asc, insert_nat_asc,
      sol_c6, g_empty, Nat.dist, max_def, min_def]

/-- C6 amended: the distribution score is
`max 0 (1 - 0.05 * total_adjacent_pairs)` where the adjacent pairs
of each (section, subject) group are counted over the day list in
the order the periods appear in the solution (not sorted), and only
when `avoid_back_to_back_subjects` is set. -/
theorem distribution_unsorted_closed_form (g : Generator) (sol : TimetableSolution) :
    calculate_distribution_score g sol =
      max 0 (1 - (if g.constraints.avoid_back_to_back_subjects then
        ((total_adj_pairs sol : Nat) : ℚ) else 0) * (5/100)) := by
  simp only [calculate_distribution_score, total_adj_pairs]
  rw [dist_penalty_foldl]

/-- A successful schedule lookup exposes its association-list entry. -/
lemma sched_find_mem (t : String) (k : Nat × Nat × Nat) :
    ∀ (sched : List ((String × (Nat × Nat × Nat)) × Period)) (p : Period),
      sched_find t k sched = some p → ((t, k), p) ∈ sched := by
  intro sched
  induction sched with
  | nil => intro p h; simp [sched_find] at h
  | cons e rest ih =>
    intro p h
    rw [sched_find] at h
    by_cases he : e.1 = (t, k)
    · rw [if_pos he] at h
      have hp2 : e.2 = p := Option.some.inj h
      have he2 : e = ((t, k), p) := by
        rcases e with ⟨a, b⟩
        simp only at he hp2
        rw [he, hp2]
      rw [← he2]
      exact List.mem_cons_self _ _
    · rw [if_neg he] at h
      exact List.mem_cons_of_mem _ (ih p h)

/-- Splitting the teacher-key count at a cons cell. -/
lemma count_teacher_key_cons (p : Period) (rest : List Period) (t : String)
    (k : Nat × Nat × Nat) :
    count_teacher_key (p :: rest) t k =
      count_teacher_key rest t k +
        (if p.teacher_id = some t ∧ tkey p = k then 1 else 0) := by
  rw [count_teacher_key, count_teacher_key, List.countP_cons]
  simp [Bool.and_eq_true, decide_eq_true_eq]

/-- Splitting the room-key count at a cons cell. -/
lemma count_room_key_cons (p : Period) (rest : List Period) (r : String)
    (k : Nat × Nat × Nat) :
    count_room_key (p :: rest) r k =
      count_room_key rest r k +
        (if p.room_id = some r ∧ tkey p = k then 1 else 0) := by
  rw [count_room_key, count_room_key, List.countP_cons]
  simp [Bool.and_eq_true, decide_eq_true_eq]

/-- Counting invariant of the teacher-overlap traversal: relative to
a schedule accumulator, the conflicts emitted for a (teacher, key)
pair number one less than the matching periods when the key is not
yet recorded, and exactly the matching periods when it is. -/
lemma teacher_overlaps_go_count (t : String) (k : Nat × Nat × Nat) :
    ∀ (ps : List Period) (sched : List ((String × (Nat × Nat × Nat)) × Period)),
      (teacher_overlaps_go sched ps).countP (is_teacher_overlap_for t k) =
        count_teacher_key ps t k -
          (if (sched_find t k sched).isSome then 0 else 1) := by
  intro ps
  induction ps with
  | nil => intro sched; simp [teacher_overlaps_go, count_teacher_key]
  | cons p rest ih =>
    intro sched
    rw [count_teacher_key_cons]
    cases hp : p.teacher_id with
    | none =>
      simp only [teacher_overlaps_go, hp]
      rw [ih]
      simp [hp]
    | some t2 =>
      simp only [teacher_overlaps_go, hp]
      have hcond : (p.teacher_id = some t ∧ tkey p = k) ↔ (t2 = t ∧ tkey p = k) := by
        rw [hp]; simp
      cases hf : sched_find t2 (tkey p) sched with
      | some first =>
        rw [List.countP_cons, ih]
        have hc : (is_teacher_overlap_for t k (Conflict.teacher_overlap t2 first p)
            = true) ↔ (t2 = t ∧ tkey p = k) := by
          simp [is_teacher_overlap_for, Bool.and_eq_true, decide_eq_true_eq]
        by_cases hm : t2 = t ∧ tkey p = k
        · obtain ⟨ht, hk⟩ := hm
          subst ht
          have hfs : sched_find t2 k sched = some first := hk ▸ hf
          rw [hfs]
          simp [is_teacher_overlap_for, hk]
        · simp [is_teacher_overlap_for, hm,
            show ¬ (t2 = t ∧ tkey p = k) from hm]
      | none =>
        rw [ih]
        have hfind : sched_find t k (((t2, tkey p), p) :: sched) =
            if (t2, tkey p) = (t, k) then some p else sched_find t k sched := rfl
        by_cases hm : t2 = t ∧ tkey p = k
        · obtain ⟨ht, hk⟩ := hm
          subst ht
          have h1 : ((t2, tkey p) = (t2, k)) := by rw [hk]
          have hfs : sched_find t2 k sched = none := hk ▸ hf
          rw [hfind, if_pos h1, hfs]
          simp [hk]
        · have h1 : (t2, tkey p) ≠ (t, k) := by
            intro h
            apply hm
            constructor
            · exact congrArg Prod.fst h
            · exact congrArg Prod.snd h
          rw [hfind, if_neg h1]
          simp [hm]

/-- Counting invariant of the room traversal, mirrored. -/
lemma room_bookings_go_count (r : String) (k : Nat × Nat × Nat) :
    ∀ (ps : List Period) (sched : List ((String × (Nat × Nat × Nat)) × Period)),
      (room_bookings_go sched ps).countP (is_room_booking_for r k) =
        count_room_key ps r k -
          (if (sched_find r k sched).isSome then 0 else 1) := by
  intro ps
  induction ps with
  | nil => intro sched; simp [room_bookings_go, count_room_key]
  | cons p rest ih =>
    intro sched
    rw [count_room_key_cons]
    cases hp : p.room_id with
    | none =>
      simp only [room_bookings_go, hp]
      rw [ih]
      simp [hp]
    | some r2 =>
      simp only [room_bookings_go, hp]
      have hcond : (p.room_id = some r ∧ tkey p = k) ↔ (r2 = r ∧ tkey p = k) := by
        rw [hp]; simp
      cases hf : sched_find r2 (tkey p) sched with
      | some first =>
        rw [List.countP_cons, ih]
        have hc : (is_room_booking_for r k (Conflict.room_double_booking r2 first p)
            = true) ↔ (r2 = r ∧ tkey p = k) := by
          simp [is_room_booking_for, Bool.and_eq_true, decide_eq_true_eq]
        by_cases hm : r2 = r ∧ tkey p = k
        · obtain ⟨ht, hk⟩ := hm
          subst ht
          have hfs : sched_find r2 k sched = some first := hk ▸ hf
          rw [hfs]
          simp [is_room_booking_for, hk]
        · simp [is_room_booking_for, hm,
            show ¬ (r2 = r ∧ tkey p = k) from hm]
      | none =>
        rw [ih]
        have hfind : sched_find r k (((r2, tkey p), p) :: sched) =
            if (r2, tkey p) = (r, k) then some p else sched_find r k sched := rfl
        by_cases hm : r2 = r ∧ tkey p = k
        · obtain ⟨ht, hk⟩ := hm
          subst ht
          have h1 : ((r2, tkey p) = (r2, k)) := by rw [hk]
          have hfs : sched_find r2 k sched = none := hk ▸ hf
          rw [hfind, if_pos h1, hfs]
          simp [hk]
        · have h1 : (r2, tkey p) ≠ (r, k) := by
            intro h
            apply hm
            constructor
            · exact congrArg Prod.fst h
            · exact congrArg Prod.snd h
          rw [hfind, if_neg h1]
          simp [hm]

/-- Every emitted teacher-overlap conflict references two periods of
the traversed list sharing the teacher and the slot key. -/
lemma teacher_overlaps_go_refs :
    ∀ (ps : List Period) (sched : List ((String × (Nat × Nat × Nat)) × Period)),
      (∀ e ∈ sched, e.2.teacher_id = some e.1.1 ∧ tkey e.2 = e.1.2) →
      ∀ c ∈ teacher_overlaps_go sched ps,
        ∃ t p1 p2, c = .teacher_overlap t p1 p2 ∧
          (p1 ∈ sched.map Prod.snd ∨ p1 ∈ ps) ∧ p2 ∈ ps ∧
          p1.teacher_id = some t ∧ p2.teacher_id = some t ∧ tkey p1 = tkey p2 := by
  intro ps
  induction ps with
  | nil => intro sched _ c hc; simp [teacher_overlaps_go] at hc
  | cons p rest ih =>
    intro sched hsched c hc
    cases hp : p.teacher_id with
    | none =>
      simp only [teacher_overlaps_go, hp] at hc
      obtain ⟨t, p1, p2, hcs, hm1, hm2, h1, h2, h3⟩ := ih sched hsched c hc
      exact ⟨t, p1, p2, hcs, hm1.imp id (List.mem_cons_of_mem p),
        List.mem_cons_of_mem p hm2, h1, h2, h3⟩
    | some t2 =>
      simp only [teacher_overlaps_go, hp] at hc
      cases hf : sched_find t2 (tkey p) sched with
      | some first =>
        rw [hf] at hc
        rcases List.mem_cons.1 hc with hceq | hcrest
        · have hmem := sched_find_mem t2 (tkey p) sched first hf
          have hprop := hsched _ hmem
          exact ⟨t2, first, p, hceq, Or.inl (List.mem_map_of_mem Prod.snd hmem),
            List.mem_cons_self p rest, hprop.1, hp, hprop.2⟩
        · obtain ⟨t, p1, p2, hcs, hm1, hm2, h1, h2, h3⟩ := ih sched hsched c hcrest
          exact ⟨t, p1, p2, hcs, hm1.imp id (List.mem_cons_of_mem p),
            List.mem_cons_of_mem p hm2, h1, h2, h3⟩
      | none =>
        rw [hf] at hc
        have hsched2 : ∀ e ∈ ((t2, tkey p), p) :: sched,
            e.2.teacher_id = some e.1.1 ∧ tkey e.2 = e.1.2 := by
          intro e he
          rcases List.mem_cons.1 he with heq | hrest
          · subst heq; exact ⟨hp, rfl⟩
          · exact hsched e hrest
        obtain ⟨t, p1, p2, hcs, hm1, hm2, h1, h2, h3⟩ := ih _ hsched2 c hc
        refine ⟨t, p1, p2, hcs, ?_, List.mem_cons_of_mem p hm2, h1, h2, h3⟩
        rcases hm1 with hsch | hps
        · rw [List.map_cons] at hsch
          rcases List.mem_cons.1 hsch with heq | hrest
          · exact Or.inr (by rw [heq]; exact List.mem_cons_self p rest)
          · exact Or.inl hrest
        · exact Or.inr (List.mem_cons_of_mem p hps)

/-- Every emitted room conflict references two periods of the
traversed list sharing the room and the slot key. -/
lemma room_bookings_go_refs :
    ∀ (ps : List Period) (sched : List ((String × (Nat × Nat × Nat)) × Period)),
      (∀ e ∈ sched, e.2.room_id = some e.1.1 ∧ tkey e.2 = e.1.2) →
      ∀ c ∈ room_bookings_go sched ps,
        ∃ r p1 p2, c = .room_double_booking r p1 p2 ∧
          (p1 ∈ sched.map Prod.snd ∨ p1 ∈ ps) ∧ p2 ∈ ps ∧
          p1.room_id = some r ∧ p2.room_id = some r ∧ tkey p1 = tkey p2 := by
  intro ps
  induction ps with
  | nil => intro sched _ c hc; simp [room_bookings_go] at hc
  | cons p rest ih =>
    intro sched hsched c hc
    cases hp : p.room_id with
    | none =>
      simp only [room_bookings_go, hp] at hc
      obtain ⟨t, p1, p2, hcs, hm1, hm2, h1, h2, h3⟩ := ih sched hsched c hc
      exact ⟨t, p1, p2, hcs, hm1.imp id (List.mem_cons_of_mem p),
        List.mem_cons_of_mem p hm2, h1, h2, h3⟩
    | some r2 =>
      simp only [room_bookings_go, hp] at hc
      cases hf : sched_find r2 (tkey p) sched with
      | some first =>
        rw [hf] at hc
        rcases List.mem_cons.1 hc with hceq | hcrest
        · have hmem := sched_find_mem r2 (tkey p) sched first hf
          have hprop := hsched _ hmem
          exact ⟨r2, first, p, hceq, Or.inl (List.mem_map_of_mem Prod.snd hmem),
            List.mem_cons_self p rest, hprop.1, hp, hprop.2⟩
        · obtain ⟨t, p1, p2, hcs, hm1, hm2, h1, h2, h3⟩ := ih sched hsched c hcrest
          exact ⟨t, p1, p2, hcs, hm1.imp id (List.mem_cons_of_mem p),
            List.mem_cons_of_mem p hm2, h1, h2, h3⟩
      | none =>
        rw [hf] at hc
        have hsched2 : ∀ e ∈ ((r2, tkey p), p) :: sched,
            e.2.room_id = some e.1.1 ∧ tkey e.2 = e.1.2 := by
          intro e he
          rcases List.mem_cons.1 he with heq | hrest
          · subst heq; exact ⟨hp, rfl⟩
          · exact hsched e hrest
        obtain ⟨t, p1, p2, hcs, hm1, hm2, h1, h2, h3⟩ := ih _ hsched2 c hc
        refine ⟨t, p1, p2, hcs, ?_, List.mem_cons_of_mem p hm2, h1, h2, h3⟩
        rcases hm1 with hsch | hps
        · rw [List.map_cons] at hsch
          rcases List.mem_cons.1 hsch with heq | hrest
          · exact Or.inr (by rw [heq]; exact List.mem_cons_self p rest)
          · exact Or.inl hrest
        · exact Or.inr (List.mem_cons_of_mem p hps)

/-- C4 counterexample: the same (teacher, day, start, end) key on
three periods yields two teacher-overlap conflicts, not the exactly
one the claim states. -/
theorem duplicate_key_two_conflicts :
    count_teacher_key ps_c4 "T1" (1, 28800, 31500) = 3 ∧
    (detect_teacher_overlaps ps_c4).countP
      (is_teacher_overlap_for "T1" (1, 28800, 31500)) = 2 ∧
    (detect_teacher_overlaps ps_c4).countP
      (is_teacher_overlap_for "T1" (1, 28800, 31500)) ≠ 1 := by
  refine ⟨by decide, by decide, by decide⟩

/-- C4 amended: for every (teacher, weekday, start, end) key held by
`n ≥ 1` periods the evaluator emits exactly `n - 1` teacher-overlap
conflicts for that key (so at least one, not exactly one, when the
key repeats), each with severity error and referencing two periods
of the solution that share the teacher and the key — the first
occurrence and one later duplicate; symmetrically for rooms. -/
theorem overlap_conflicts_counted (ps : List Period) (t r : String)
    (k : Nat × Nat × Nat) :
    ((detect_teacher_overlaps ps).countP (is_teacher_overlap_for t k) =
      count_teacher_key ps t k - 1) ∧
    ((detect_room_double_bookings ps).countP (is_room_booking_for r k) =
      count_room_key ps r k - 1) ∧
    (∀ c ∈ detect_teacher_overlaps ps, c.severity = "error" ∧
      ∃ t2 p1 p2, c = .teacher_overlap t2 p1 p2 ∧ p1 ∈ ps ∧ p2 ∈ ps ∧
        p1.teacher_id = some t2 ∧ p2.teacher_id = some t2 ∧ tkey p1 = tkey p2) ∧
    (∀ c ∈ detect_room_double_bookings ps, c.severity = "error" ∧
      ∃ r2 p1 p2, c = .room_double_booking r2 p1 p2 ∧ p1 ∈ ps ∧ p2 ∈ ps ∧
        p1.room_id = some r2 ∧ p2.room_id = some r2 ∧ tkey p1 = tkey p2) := by
  refine ⟨?_, ?_, ?_, ?_⟩
  · rw [detect_teacher_overlaps, teacher_overlaps_go_count]
    simp [sched_find]
  · rw [detect_room_double_bookings, room_bookings_go_count]
    simp [sched_find]
  · intro c hc
    obtain ⟨t2, p1, p2, hcs, hm1, hm2, h1, h2, h3⟩ :=
      teacher_overlaps_go_refs ps [] (by simp) c hc
    rcases hm1 with h | h
    · simp at h
    · exact ⟨by rw [hcs]; rfl, t2, p1, p2, hcs, h, hm2, h1, h2, h3⟩
  · intro c hc
    obtain ⟨r2, p1, p2, hcs, hm1, hm2, h1, h2, h3⟩ :=
      room_bookings_go_refs ps [] (by simp) c hc
    rcases hm1 with h | h
    · simp at h
    · exact ⟨by rw [hcs]; rfl, r2, p1, p2, hcs, h, hm2, h1, h2, h3⟩

/-- Descending insertion permutes. -/
lemma insert_desc_perm (x : TimetableSolution) :
    ∀ l, (insert_desc x l).Perm (x :: l) := by
  intro l
  induction l with
  | nil => simp [insert_desc]
  | cons y ys ih =>
    rw [insert_desc]
    split
    · exact .refl _
    · exact (ih.cons y).trans (List.Perm.swap x y ys)

/-- The stable fitness sort permutes its input. -/
lemma sort_by_fitness_perm : ∀ l, (sort_by_fitness l).Perm l := by
  intro l
  induction l with
  | nil => exact .refl _
  | cons x xs ih =>
    rw [sort_by_fitness]
    exact (insert_desc_perm x _).trans (ih.cons x)

/-- Descending insertion preserves descending order. -/
lemma insert_desc_pairwise (x : TimetableSolution) :
    ∀ l, l.Pairwise (fun a b => b.fitness_score ≤ a.fitness_score) →
      (insert_desc x l).Pairwise (fun a b => b.fitness_score ≤ a.fitness_score) := by
  intro l
  induction l with
  | nil => intro _; simp [insert_desc]
  | cons y ys ih =>
    intro hp
    rw [insert_desc]
    rcases List.pairwise_cons.1 hp with ⟨hy, hys⟩
    split
    case isTrue h =>
      refine List.pairwise_cons.2 ⟨?_, hp⟩
      intro z hz
      rcases List.mem_cons.1 hz with rfl | hz2
      · exact le_of_lt h
      · exact le_trans (hy z hz2) (le_of_lt h)
    case isFalse h =>
      refine List.pairwise_cons.2 ⟨?_, ih hys⟩
      intro z hz
      have hz2 := (insert_desc_perm x ys).mem_iff.1 hz
      rcases List.mem_cons.1 hz2 with rfl | hz3
      · exact not_lt.1 h
      · exact hy z hz3

/-- The stable fitness sort yields a descending list. -/
lemma sort_by_fitness_pairwise :
    ∀ l, (sort_by_fitness l).Pairwise
      (fun a b => b.fitness_score ≤ a.fitness_score) := by
  intro l
  induction l with
  | nil => simp [sort_by_fitness]
  | cons x xs ih =>
    rw [sort_by_fitness]
    exact insert_desc_pairwise x _ ih

/-- The offspring loop only ever appends to the population it was
seeded with: the elite slice survives as a prefix. -/
lemma fill_offspring_prefix (g : Generator) (pp : GAParams)
    (pop : List TimetableSolution) :
    ∀ (fuel : Nat) (newPop : List TimetableSolution) (s : RState)
      (res : List TimetableSolution) (s1 : RState),
      fill_offspring g pp pop fuel newPop s = .ok (res, s1) →
      ∃ extra, res = newPop ++ extra := by
  intro fuel
  induction fuel with
  | zero =>
    intro newPop s res s1 h
    rw [fill_offspring] at h
    injection h with h2
    injection h2 with h3 h4
    subst h3
    exact ⟨[], (List.append_nil _).symm⟩
  | succ fuel ih =>
    intro newPop s res s1 h
    rw [fill_offspring] at h
    split at h
    · cases hmc : make_children g pp pop s with
      | error e => rw [hmc] at h; cases h
      | ok val =>
        obtain ⟨⟨c1, c2⟩, s2⟩ := val
        rw [hmc] at h
        obtain ⟨extra, hex⟩ := ih _ _ _ _ h
        exact ⟨[c1, c2] ++ extra, by rw [hex, List.append_assoc]⟩
    · injection h with h2
      injection h2 with h3 h4
      subst h3
      exact ⟨[], (List.append_nil _).symm⟩

/-- C7: in a generation step with `elite_size ≥ 1` on a sorted
population, the elite slice is carried unchanged at the head of the
new list, so the next generation's best fitness is at least the
current best — for every random oracle. -/
theorem elitism_monotone (g : Generator) (pp : GAParams)
    (pop pop1 : List TimetableSolution) (a : TimetableSolution)
    (rest : List TimetableSolution) (s s1 : RState)
    (hpop : pop = a :: rest)
    (hsorted : pop.Pairwise (fun x y => y.fitness_score ≤ x.fitness_score))
    (helite : 1 ≤ pp.elite_size) (hsize : 1 ≤ pp.population_size)
    (hstep : generation_step g pp pop s = .ok (pop1, s1)) :
    ∃ b tl, pop1 = b :: tl ∧ a.fitness_score ≤ b.fitness_score ∧
      ∀ x ∈ pop, x.fitness_score ≤ b.fitness_score := by
  rw [generation_step] at hstep
  cases hfill : fill_offspring g pp pop pp.population_size
      (pop.take pp.elite_size) s with
  | error e => rw [hfill] at hstep; cases hstep
  | ok val =>
    obtain ⟨newPop, s2⟩ := val
    rw [hfill] at hstep
    injection hstep with h2
    injection h2 with h1 hs2
    obtain ⟨extra, hex⟩ := fill_offspring_prefix g pp pop _ _ _ _ _ hfill
    obtain ⟨e1, he⟩ : ∃ e1, pp.elite_size = e1 + 1 :=
      ⟨pp.elite_size - 1, by omega⟩
    have htake : pop.take pp.elite_size = a :: rest.take e1 := by
      rw [hpop, he, List.take_succ_cons]
    have hnew : newPop = a :: (rest.take e1 ++ extra) := by
      rw [hex, htake]; simp
    obtain ⟨p1, hps⟩ : ∃ p1, pp.population_size = p1 + 1 :=
      ⟨pp.population_size - 1, by omega⟩
    have hmem : a ∈ newPop.take pp.population_size := by
      rw [hnew, hps, List.take_succ_cons]
      exact List.mem_cons_self _ _
    have hmem1 : a ∈ pop1 := by
      rw [← h1]
      exact (sort_by_fitness_perm _).mem_iff.2 hmem
    have hsorted1 : pop1.Pairwise
        (fun x y => y.fitness_score ≤ x.fitness_score) := by
      rw [← h1]
      exact sort_by_fitness_pairwise _
    cases hpp : pop1 with
    | nil => rw [hpp] at hmem1; simp at hmem1
    | cons b tl =>
      rw [hpp] at hmem1 hsorted1
      have hab : a.fitness_score ≤ b.fitness_score := by
        rcases List.mem_cons.1 hmem1 with rfl | hmm
        · exact le_refl _
        · exact (List.pairwise_cons.1 hsorted1).1 a hmm
      refine ⟨b, tl, rfl, hab, ?_⟩
      intro x hx
      rw [hpop] at hx hsorted
      rcases List.mem_cons.1 hx with rfl | hx2
      · exact hab
      · exact le_trans ((List.pairwise_cons.1 hsorted).1 x hx2) hab

/-- Witness for C7 on a one-element sorted population. -/
theorem elitism_monotone_witness :
    pop_w7.Pairwise
      (fun x y : TimetableSolution => y.fitness_score ≤ x.fitness_score) ∧
    1 ≤ pp_one.elite_size ∧ 1 ≤ pp_one.population_size ∧
    ∃ b tl, step_w7_pop = b :: tl ∧ sol_w7.fitness_score ≤ b.fitness_score ∧
      ∀ x ∈ pop_w7, x.fitness_score ≤ b.fitness_score :=
  ⟨by simp [pop_w7], by decide, by decide,
   elitism_monotone g_min pp_one pop_w7 step_w7_pop sol_w7 [] ⟨fun _ => 0, 0⟩
     step_w7_state rfl (by simp [pop_w7]) (by decide) (by decide) rfl⟩

/-- Erasing at the overwritten position cancels the overwrite. -/
lemma eraseIdx_set_self {α : Type} :
    ∀ (l : List α) (i : Nat) (b : α), (l.set i b).eraseIdx i = l.eraseIdx i := by
  intro l
  induction l with
  | nil => intro i b; simp
  | cons a t ih =>
    intro i b
    cases i with
    | zero => simp
    | succ n =>
      simp only [List.set_cons_succ, List.eraseIdx_cons_succ]
      rw [ih]

/-- Erasing above an overwrite commutes with it. -/
lemma eraseIdx_set_of_lt {α : Type} :
    ∀ (l : List α) (i j : Nat) (b : α), i < j →
      (l.set i b).eraseIdx j = (l.eraseIdx j).set i b := by
  intro l
  induction l with
  | nil => intro i j b h; simp
  | cons a t ih =>
    intro i j b h
    cases j with
    | zero => omega
    | succ m =>
      cases i with
      | zero => simp [List.set_cons_zero, List.eraseIdx_cons_succ]
      | succ n =>
        simp only [List.set_cons_succ, List.eraseIdx_cons_succ]
        rw [ih n m b (by omega)]

/-- Overwriting position `i` is, up to permutation, replacing the
element at `i`. -/
lemma set_perm_cons_eraseIdx {α : Type} :
    ∀ (l : List α) (i : Nat) (b : α), i < l.length →
      (l.set i b).Perm (b :: l.eraseIdx i) := by
  intro l
  induction l with
  | nil => intro i b h; simp at h
  | cons a t ih =>
    intro i b h
    cases i with
    | zero =>
      simp only [List.set_cons_zero, List.eraseIdx_cons_zero]
      exact .refl _
    | succ n =>
      have hlen : n < t.length := by simpa using h
      simp only [List.set_cons_succ, List.eraseIdx_cons_succ]
      exact ((ih n b hlen).cons a).trans (List.Perm.swap b a _)

/-- A list is, up to permutation, its `i`-th element in front of the
rest. -/
lemma getD_cons_eraseIdx_perm {α : Type} (d : α) :
    ∀ (l : List α) (i : Nat), i < l.length →
      l.Perm (l.getD i d :: l.eraseIdx i) := by
  intro l
  induction l with
  | nil => intro i h; simp at h
  | cons a t ih =>
    intro i h
    cases i with
    | zero =>
      simp only [List.getD_cons_zero, List.eraseIdx_cons_zero]
      exact .refl _
    | succ n =>
      have hlen : n < t.length := by simpa using h
      simp only [List.getD_cons_succ, List.eraseIdx_cons_succ]
      exact ((ih n hlen).cons a).trans (List.Perm.swap _ a _)

/-- The pairwise swap of `_mutate` permutes the period list. -/
lemma swap_periods_perm (l : List Period) (i j : Nat)
    (hi : i < l.length) (hj : j < l.length) :
    (swap_periods l i j).Perm l := by
  have key : ∀ (l : List Period) (i j : Nat), i < l.length → j < l.length →
      i < j → (swap_periods l i j).Perm l := by
    intro l i j hi hj hij
    have hj1 : j < (l.set i (l.getD j default)).length := by
      simpa [List.length_set] using hj
    have hi1 : i < (l.eraseIdx j).length := by
      rw [List.length_eraseIdx]
      simp only [hj, if_true]
      omega
    have h1 : (swap_periods l i j).Perm
        (l.getD i default :: (l.set i (l.getD j default)).eraseIdx j) :=
      set_perm_cons_eraseIdx _ j _ hj1
    have h2 : (l.set i (l.getD j default)).eraseIdx j =
        (l.eraseIdx j).set i (l.getD j default) :=
      eraseIdx_set_of_lt l i j _ hij
    have h3 : ((l.eraseIdx j).set i (l.getD j default)).Perm
        (l.getD j default :: (l.eraseIdx j).eraseIdx i) :=
      set_perm_cons_eraseIdx _ i _ hi1
    have h6 : (l.eraseIdx j).getD i default = l.getD i default := by
      rw [List.getD_eq_getElem?_getD, List.getD_eq_getElem?_getD,
        List.getElem?_eraseIdx, if_pos hij]
    have h4 : l.Perm (l.getD j default :: l.eraseIdx j) :=
      getD_cons_eraseIdx_perm default l j hj
    have h5 : (l.eraseIdx j).Perm
        (l.getD i default :: (l.eraseIdx j).eraseIdx i) := by
      have hh := getD_cons_eraseIdx_perm default (l.eraseIdx j) i hi1
      rwa [h6] at hh
    have step2 : (swap_periods l i j).Perm
        (l.getD i default :: l.getD j default :: (l.eraseIdx j).eraseIdx i) :=
      (h2 ▸ h1).trans (h3.cons _)
    have step3 : (swap_periods l i j).Perm
        (l.getD j default :: l.getD i default :: (l.eraseIdx j).eraseIdx i) :=
      step2.trans (List.Perm.swap _ _ _)
    have step4 : l.Perm
        (l.getD j default :: l.getD i default :: (l.eraseIdx j).eraseIdx i) :=
      h4.trans (h5.cons _)
    exact step3.trans step4.symm
  rcases lt_trichotomy i j with hij | rfl | hji
  · exact key l i j hi hj hij
  · have ha : (swap_periods l i i).Perm
        (l.getD i default :: (l.set i (l.getD i default)).eraseIdx i) := by
      apply set_perm_cons_eraseIdx
      simpa [List.length_set] using hi
    rw [eraseIdx_set_self] at ha
    exact ha.trans (getD_cons_eraseIdx_perm default l i hi).symm
  · have hcomm : swap_periods l i j = swap_periods l j i := by
      rw [swap_periods, swap_periods]
      exact List.set_comm _ _ _ (by omega)
    rw [hcomm]
    exact key l j i hj hi hji

/-- Specification of the two-distinct-indices draw. -/
lemma sample_two_indices_spec (n : Nat) (s : RState) (i j : Nat) (s1 : RState)
    (h : sample_two_indices n s = .ok ((i, j), s1)) : i < n ∧ j < n ∧ i ≠ j := by
  rw [sample_two_indices] at h
  split at h
  · cases h
  · rename_i hn
    injection h with h2
    injection h2 with h3 h4
    injection h3 with hi hj
    subst hi
    simp only at hj
    have h5 : s.stream s.pos % n < n := Nat.mod_lt _ (by omega)
    have h6 : s.stream (s.pos + 1) % (n - 1) < n - 1 := Nat.mod_lt _ (by omega)
    by_cases hlt : s.stream (s.pos + 1) % (n - 1) < s.stream s.pos % n
    · rw [if_pos hlt] at hj
      subst hj
      omega
    · rw [if_neg hlt] at hj
      subst hj
      omega

/-- The swap loop permutes the period list. -/
lemma perform_swaps_perm :
    ∀ (k : Nat) (l : List Period) (s : RState) (res : List Period) (s1 : RState),
      perform_swaps k l s = .ok (res, s1) → res.Perm l := by
  intro k
  induction k with
  | zero =>
    intro l s res s1 h
    rw [perform_swaps] at h
    injection h with h2
    injection h2 with h3 h4
    subst h3
    exact .refl _
  | succ k ih =>
    intro l s res s1 h
    rw [perform_swaps] at h
    cases hs : sample_two_indices l.length s with
    | error e => rw [hs] at h; cases h
    | ok v =>
      obtain ⟨⟨i, j⟩, s2⟩ := v
      rw [hs] at h
      obtain ⟨hi, hj, hne⟩ := sample_two_indices_spec _ _ _ _ _ hs
      exact (ih _ _ _ _ h).trans (swap_periods_perm l i j hi hj)

/-- The teacher draw returns an eligible teacher, or null exactly
when no teacher is eligible. -/
lemma select_teacher_spec (g : Generator) (subj : String) (s : RState) :
    (∃ t ∈ eligible_teachers g subj,
        (select_teacher_for_subject g subj s).1 = some t.id) ∨
      (eligible_teachers g subj = [] ∧
        (select_teacher_for_subject g subj s).1 = none) := by
  cases he : eligible_teachers g subj with
  | nil =>
    right
    refine ⟨rfl, ?_⟩
    simp [select_teacher_for_subject, he]
  | cons t ts =>
    left
    have hlt : (draw s).1 % (ts.length + 1) < (t :: ts).length := by
      simp only [List.length_cons]
      exact Nat.mod_lt _ (by omega)
    refine ⟨(t :: ts).getD ((draw s).1 % (ts.length + 1)) t, ?_, ?_⟩
    · rw [List.getD_eq_getElem _ _ hlt]
      exact List.getElem_mem _
    · simp [select_teacher_for_subject, he]

/-- The room draw returns an available room, or null exactly when no
room is available. -/
lemma select_room_spec (g : Generator) (s : RState) :
    (∃ r ∈ available_rooms g, (select_room g s).1 = some r.id) ∨
      (available_rooms g = [] ∧ (select_room g s).1 = none) := by
  cases he : available_rooms g with
  | nil =>
    right
    refine ⟨rfl, ?_⟩
    simp [select_room, he]
  | cons r rs =>
    left
    have hlt : (draw s).1 % (rs.length + 1) < (r :: rs).length := by
      simp only [List.length_cons]
      exact Nat.mod_lt _ (by omega)
    refine ⟨(r :: rs).getD ((draw s).1 % (rs.length + 1)) r, ?_, ?_⟩
    · rw [List.getD_eq_getElem _ _ hlt]
      exact List.getElem_mem _
    · simp [select_room, he]

/-- The re-sampling loop of `_mutate` keeps every slot projection in
place and only redraws teachers and rooms. -/
lemma mutate_tr_spec (g : Generator) :
    ∀ (ps : List Period) (s : RState),
      ((mutate_teachers_rooms g ps s).1.map proj6 = ps.map proj6) ∧
      ∀ q ∈ (mutate_teachers_rooms g ps s).1, ∃ p ∈ ps, proj6 q = proj6 p ∧
        (q.teacher_id = p.teacher_id ∨ resampled_teacher_ok g q) ∧
        (q.room_id = p.room_id ∨ resampled_room_ok g q) := by
  intro ps
  induction ps with
  | nil =>
    intro s
    constructor
    · rfl
    · intro q hq
      simp [mutate_teachers_rooms] at hq
  | cons p rest ih =>
    intro s
    rcases hre1 : rand_event (1/10) s with ⟨b1, s1⟩
    rcases hsel : (if b1 then select_teacher_for_subject g p.subject_id s1
        else (p.teacher_id, s1)) with ⟨t0, s2⟩
    rcases hre2 : rand_event (1/10) s2 with ⟨b2, s3⟩
    rcases hsro : (if b2 then select_room g s3 else (p.room_id, s3)) with ⟨r0, s4⟩
    rcases hrec : mutate_teachers_rooms g rest s4 with ⟨rest2, s5⟩
    have hout : mutate_teachers_rooms g (p :: rest) s =
        ({ p with teacher_id := t0, room_id := r0 } :: rest2, s5) := by
      simp only [mutate_teachers_rooms, hre1, hsel, hre2, hsro, hrec]
    have ihr := ih s4
    rw [hrec] at ihr
    rw [hout]
    constructor
    · simp only [List.map_cons, ihr.1]
      rfl
    · intro q hq
      rcases List.mem_cons.1 hq with rfl | hq2
      · refine ⟨p, List.mem_cons_self _ _, rfl, ?_, ?_⟩
        · by_cases hb1 : b1
          · right
            rw [if_pos hb1] at hsel
            rcases select_teacher_spec g p.subject_id s1 with ⟨t, ht, hts⟩ | ⟨he, hts⟩
            · exact Or.inl ⟨t, ht, by rw [← hts, hsel]⟩
            · exact Or.inr ⟨he, by rw [← hts, hsel]⟩
          · left
            rw [if_neg hb1] at hsel
            injection hsel with h1 h2
            exact h1.symm
        · by_cases hb2 : b2
          · right
            rw [if_pos hb2] at hsro
            rcases select_room_spec g s3 with ⟨r, hr, hrs⟩ | ⟨he, hrs⟩
            · exact Or.inl ⟨r, hr, by rw [← hrs, hsro]⟩
            · exact Or.inr ⟨he, by rw [← hrs, hsro]⟩
          · left
            rw [if_neg hb2] at hsro
            injection hsro with h1 h2
            exact h1.symm
      · obtain ⟨p2, hp2, hproj, ht, hr⟩ := ihr.2 q hq2
        exact ⟨p2, List.mem_cons_of_mem _ hp2, hproj, ht, hr⟩

/-- `_mutate` preserves the period count and the multiset of slot
projections; teacher and room fields either survive from the source
period or are freshly drawn. -/
lemma mutate_props (g : Generator) (sol : TimetableSolution) (s : RState)
    (out : TimetableSolution) (s1 : RState) (h : mutate g sol s = .ok (out, s1)) :
    out.periods.length = sol.periods.length ∧
    (out.periods.map proj6).Perm (sol.periods.map proj6) ∧
    ∀ q ∈ out.periods, ∃ p ∈ sol.periods, proj6 q = proj6 p ∧
      (q.teacher_id = p.teacher_id ∨ resampled_teacher_ok g q) ∧
      (q.room_id = p.room_id ∨ resampled_room_ok g q) := by
  rw [mutate] at h
  split at h
  · cases hri : randint 1 (min 5 (sol.periods.length / 2)) s with
    | error e => rw [hri] at h; cases h
    | ok v =>
      obtain ⟨ns, s2⟩ := v
      simp only [hri] at h
      cases hps : perform_swaps ns sol.periods s2 with
      | error e => rw [hps] at h; cases h
      | ok v2 =>
        obtain ⟨ps1, s3⟩ := v2
        simp only [hps] at h
        rcases htr : mutate_teachers_rooms g ps1 s3 with ⟨ps2, s4⟩
        simp only [htr] at h
        injection h with h2
        injection h2 with hout hs4
        have hperm : ps1.Perm sol.periods := perform_swaps_perm _ _ _ _ _ hps
        have htrs := mutate_tr_spec g ps1 s3
        rw [htr] at htrs
        have hproj : (ps2.map proj6).Perm (sol.periods.map proj6) :=
          htrs.1 ▸ hperm.map proj6
        have hpout : out.periods = ps2 := by rw [← hout]
        refine ⟨?_, ?_, ?_⟩
        · rw [hpout]
          have h3 := hproj.length_eq
          simpa using h3
        · rw [hpout]
          exact hproj
        · intro q hq
          rw [hpout] at hq
          obtain ⟨p2, hp2, hpr, ht, hr⟩ := htrs.2 q hq
          exact ⟨p2, hperm.subset hp2, hpr, ht, hr⟩
  · rcases htr : mutate_teachers_rooms g sol.periods s with ⟨ps2, s4⟩
    simp only [htr] at h
    injection h with h2
    injection h2 with hout hs4
    have htrs := mutate_tr_spec g sol.periods s
    rw [htr] at htrs
    have hpout : out.periods = ps2 := by rw [← hout]
    refine ⟨?_, ?_, ?_⟩
    · rw [hpout]
      have h3 := congrArg List.length htrs.1
      simpa using h3
    · rw [hpout, htrs.1]
    · intro q hq
      rw [hpout] at hq
      exact htrs.2 q hq

/-- C8 counterexample: mutating a two-period solution whose teacher
is absent from the teacher index re-samples the teacher to null,
which is not a member of the subject's (empty) eligible list, so the
claim as stated fails. -/
theorem mutate_null_teacher_counterexample :
    mutate g_empty sol_c8 ⟨fun _ => 0, 0⟩ =
      .ok (out_c8, ⟨fun _ => 0, 7⟩) ∧
    ¬ mutate_claim_holds g_empty sol_c8 out_c8 := by
  constructor
  · norm_num [mutate, randint, sample_two_indices, swap_periods, perform_swaps,
      mutate_teachers_rooms, rand_event, draw, select_teacher_for_subject,
      select_room, eligible_teachers, available_rooms, g_empty, sol_c8, out_c8,
      Nat.mod_one]
  · unfold mutate_claim_holds
    decide

/-- C8 amended: mutation (on success) preserves the period count and
the multiset of (day, period_number, start, end, subject, section)
projections; each output period keeps its source period's teacher
and room unless they were re-sampled, and a re-sampled teacher comes
from the subject's eligible list — or is null when that list is
empty (likewise rooms from the available list).  The input solution
is untouched (the model is a pure function of it). -/
theorem mutate_preserves_slots (g : Generator) (sol : TimetableSolution)
    (s : RState) (out : TimetableSolution) (s1 : RState)
    (h : mutate g sol s = .ok (out, s1)) :
    out.periods.length = sol.periods.length ∧
    (out.periods.map proj6).Perm (sol.periods.map proj6) ∧
    ∀ q ∈ out.periods, ∃ p ∈ sol.periods, proj6 q = proj6 p ∧
      (q.teacher_id = p.teacher_id ∨ resampled_teacher_ok g q) ∧
      (q.room_id = p.room_id ∨ resampled_room_ok g q) :=
  mutate_props g sol s out s1 h

/-- Witness for C8 at the concrete two-period mutation. -/
theorem mutate_preserves_slots_witness :
    out_c8.periods.length = sol_c8.periods.length ∧
    (out_c8.periods.map proj6).Perm (sol_c8.periods.map proj6) ∧
    ∀ q ∈ out_c8.periods, ∃ p ∈ sol_c8.periods, proj6 q = proj6 p ∧
      (q.teacher_id = p.teacher_id ∨ resampled_teacher_ok g_empty q) ∧
      (q.room_id = p.room_id ∨ resampled_room_ok g_empty q) :=
  mutate_preserves_slots g_empty sol_c8 ⟨fun _ => 0, 0⟩ out_c8 ⟨fun _ => 0, 7⟩
    (by norm_num [mutate, randint, sample_two_indices, swap_periods, perform_swaps,
      mutate_teachers_rooms, rand_event, draw, select_teacher_for_subject,
      select_room, eligible_teachers, available_rooms, g_empty, sol_c8, out_c8,
      Nat.mod_one])

/-- A slot-equal period inherits the window invariant. -/
lemma window_of_proj6 (g : Generator) {p q : Period} (h : proj6 q = proj6 p)
    (hw : PeriodWindowOK g p) : PeriodWindowOK g q := by
  simp only [proj6, Prod.mk.injEq] at h
  obtain ⟨h1, h2, h3, h4, h5, h6⟩ := h
  exact ⟨h3 ▸ hw.1, h3 ▸ h4 ▸ hw.2⟩

/-- Every period the per-day layout loop emits starts at or after
the cursor it was seeded with and strictly before its own end,
provided the duration is positive and the whole walk stays below
midnight. -/
lemma init_day_window (g : Generator) (subject_ids : List String) (sid : String)
    (day : Nat) (hd : 0 < g.school_timing.period_duration_minutes) :
    ∀ (fuel pnum cursor : Nat) (s : RState) (res : List Period) (s1 : RState),
      g.school_timing.start_time ≤ cursor →
      cursor + 60 * fuel * max g.school_timing.period_duration_minutes 15 < 86400 →
      init_day g subject_ids sid day fuel pnum cursor s = .ok (res, s1) →
      ∀ p ∈ res, PeriodWindowOK g p := by
  intro fuel
  induction fuel with
  | zero =>
    intro pnum cursor s res s1 hc hb h
    rw [init_day] at h
    injection h with h2
    injection h2 with h3 h4
    subst h3
    intro p hp
    simp at hp
  | succ fuel ih =>
    intro pnum cursor s res s1 hc hb h
    set M := max g.school_timing.period_duration_minutes 15 with hM
    have hM15 : 15 ≤ M := le_max_right _ _
    have hMd : g.school_timing.period_duration_minutes ≤ M := le_max_left _ _
    obtain ⟨A, hA⟩ : ∃ A, 60 * fuel * M = A := ⟨_, rfl⟩
    have hsplit : 60 * (fuel + 1) * M = A + 60 * M := by rw [← hA]; ring
    rw [hsplit] at hb
    rw [init_day] at h
    split at h
    · have hmod : add_minutes cursor 15 = cursor + 900 := by
        rw [add_minutes]
        apply Nat.mod_eq_of_lt
        omega
      apply ih pnum (add_minutes cursor 15) s res s1 ?_ ?_ h
      · rw [hmod]; omega
      · rw [hmod, hA]; omega
    · cases hch : rand_choice subject_ids s with
      | error e => rw [hch] at h; cases h
      | ok v =>
        obtain ⟨subj, sa⟩ := v
        simp only [hch] at h
        rcases hsel : select_teacher_for_subject g subj sa with ⟨teacher, sb⟩
        simp only [hsel] at h
        rcases hsro : select_room g sb with ⟨room, sc⟩
        simp only [hsro] at h
        have hmod : add_minutes cursor g.school_timing.period_duration_minutes =
            cursor + g.school_timing.period_duration_minutes * 60 := by
          rw [add_minutes]
          apply Nat.mod_eq_of_lt
          omega
        cases hrec : init_day g subject_ids sid day fuel (pnum + 1)
            (add_minutes cursor g.school_timing.period_duration_minutes) sc with
        | error e => rw [hrec] at h; cases h
        | ok v2 =>
          obtain ⟨rest, sd⟩ := v2
          simp only [hrec] at h
          injection h with h2
          injection h2 with h3 h4
          subst h3
          intro p hp
          rcases List.mem_cons.1 hp with rfl | hp2
          · refine ⟨hc, ?_⟩
            show cursor < add_minutes cursor g.school_timing.period_duration_minutes
            rw [hmod]
            omega
          · apply ih (pnum + 1) _ sc rest sd ?_ ?_ hrec p hp2
            · rw [hmod]; omega
            · rw [hmod, hA]; omega

/-- The per-day loop over school days preserves the window
invariant. -/
lemma init_days_window (g : Generator) (subject_ids : List String) (sid : String)
    (hd : 0 < g.school_timing.period_duration_minutes)
    (hb : g.school_timing.start_time + 60 * g.school_timing.total_periods *
      max g.school_timing.period_duration_minutes 15 < 86400) :
    ∀ (days : List Nat) (s : RState) (res : List Period) (s1 : RState),
      init_days g subject_ids sid days s = .ok (res, s1) →
      ∀ p ∈ res, PeriodWindowOK g p := by
  intro days
  induction days with
  | nil =>
    intro s res s1 h
    rw [init_days] at h
    injection h with h2
    injection h2 with h3 h4
    subst h3
    intro p hp
    simp at hp
  | cons d ds ih =>
    intro s res s1 h
    rw [init_days] at h
    cases hday : init_day g subject_ids sid d g.school_timing.total_periods 1
        g.school_timing.start_time s with
    | error e => rw [hday] at h; cases h
    | ok v =>
      obtain ⟨ps, sa⟩ := v
      simp only [hday] at h
      cases hds : init_days g subject_ids sid ds sa with
      | error e => rw [hds] at h; cases h
      | ok v2 =>
        obtain ⟨rest, sb⟩ := v2
        simp only [hds] at h
        injection h with h2
        injection h2 with h3 h4
        subst h3
        intro p hp
        rcases List.mem_append.1 hp with h1 | h2
        · exact init_day_window g subject_ids sid d hd _ _ _ _ _ _
            (le_refl _) hb hday p h1
        · exact ih sa rest sb hds p h2

/-- The per-section loop preserves the window invariant. -/
lemma init_sections_window (g : Generator)
    (hd : 0 < g.school_timing.period_duration_minutes)
    (hb : g.school_timing.start_time + 60 * g.school_timing.total_periods *
      max g.school_timing.period_duration_minutes 15 < 86400) :
    ∀ (secs : List SectionInfo) (s : RState) (res : List Period) (s1 : RState),
      init_sections g secs s = .ok (res, s1) →
      ∀ p ∈ res, PeriodWindowOK g p := by
  intro secs
  induction secs with
  | nil =>
    intro s res s1 h
    rw [init_sections] at h
    injection h with h2
    injection h2 with h3 h4
    subst h3
    intro p hp
    simp at hp
  | cons sec rest ih =>
    intro s res s1 h
    rw [init_sections] at h
    cases hdays : init_days g (section_subject_ids g sec) sec.id (school_days g) s with
    | error e => rw [hdays] at h; cases h
    | ok v =>
      obtain ⟨ps, sa⟩ := v
      simp only [hdays] at h
      cases hrest : init_sections g rest sa with
      | error e => rw [hrest] at h; cases h
      | ok v2 =>
        obtain ⟨ps2, sb⟩ := v2
        simp only [hrest] at h
        injection h with h2
        injection h2 with h3 h4
        subst h3
        intro p hp
        rcases List.mem_append.1 hp with h1 | h2
        · exact init_days_window g _ _ hd hb _ s ps sa hdays p h1
        · exact ih sa ps2 sb hrest p h2

/-- Every solution of the initial population satisfies the window
invariant. -/
lemma initialize_population_window (g : Generator)
    (hd : 0 < g.school_timing.period_duration_minutes)
    (hb : g.school_timing.start_time + 60 * g.school_timing.total_periods *
      max g.school_timing.period_duration_minutes 15 < 86400) :
    ∀ (n : Nat) (s : RState) (pop : List TimetableSolution) (s1 : RState),
      initialize_population g n s = .ok (pop, s1) → PopWindowOK g pop := by
  intro n
  induction n with
  | zero =>
    intro s pop s1 h
    rw [initialize_population] at h
    injection h with h2
    injection h2 with h3 h4
    subst h3
    intro sol hsol
    simp at hsol
  | succ n ih =>
    intro s pop s1 h
    rw [initialize_population] at h
    cases hsec : init_sections g g.sections s with
    | error e => rw [hsec] at h; cases h
    | ok v =>
      obtain ⟨ps, sa⟩ := v
      simp only [hsec] at h
      cases hrest : initialize_population g n sa with
      | error e => rw [hrest] at h; cases h
      | ok v2 =>
        obtain ⟨rest, sb⟩ := v2
        simp only [hrest] at h
        injection h with h2
        injection h2 with h3 h4
        subst h3
        intro sol hsol
        rcases List.mem_cons.1 hsol with rfl | h2
        · intro p hp
          exact init_sections_window g hd hb _ s ps sa hsec p hp
        · exact ih sa rest sb hrest sol h2

/-- Sampling without replacement only returns pool members. -/
lemma sample_solutions_mem :
    ∀ (k : Nat) (pool : List TimetableSolution) (s : RState),
      ∀ x ∈ (sample_solutions k pool s).1, x ∈ pool := by
  intro k
  induction k with
  | zero => intro pool s x hx; simp [sample_solutions] at hx
  | succ k ih =>
    intro pool s x hx
    cases pool with
    | nil => simp [sample_solutions] at hx
    | cons a t =>
      rcases hd1 : draw s with ⟨d, s1⟩
      rcases hsamp : sample_solutions k ((a :: t).eraseIdx (d % (a :: t).length)) s1
        with ⟨rest, s2⟩
      have hx2 : x ∈ (a :: t).getD (d % (a :: t).length) a :: rest := by
        simp only [sample_solutions, hd1, hsamp] at hx
        exact hx
      rcases List.mem_cons.1 hx2 with rfl | hx3
      · have hlt : d % (a :: t).length < (a :: t).length :=
          Nat.mod_lt _ (by simp)
        rw [List.getD_eq_getElem _ _ hlt]
        exact List.getElem_mem _
      · have hmem : x ∈ (a :: t).eraseIdx (d % (a :: t).length) := by
          have hih := ih ((a :: t).eraseIdx (d % (a :: t).length)) s1 x
          rw [hsamp] at hih
          exact hih hx3
        exact (List.eraseIdx_sublist _ _).subset hmem

/-- Python `max` returns its seed or a member of the tail. -/
lemma python_max_mem :
    ∀ (xs : List TimetableSolution) (best : TimetableSolution),
      python_max best xs = best ∨ python_max best xs ∈ xs := by
  intro xs
  induction xs with
  | nil => intro best; left; rfl
  | cons x t ih =>
    intro best
    rw [python_max]
    rcases ih (if best.fitness_score < x.fitness_score then x else best) with h | h
    · rw [h]
      split
      · right; exact List.mem_cons_self _ _
      · left; rfl
    · right; exact List.mem_cons_of_mem _ h

/-- Tournament selection returns a member of the population. -/
lemma tournament_mem (pop : List TimetableSolution) (s : RState)
    (x : TimetableSolution) (s1 : RState)
    (h : tournament_selection pop s = .ok (x, s1)) : x ∈ pop := by
  rw [tournament_selection] at h
  rcases hsamp : sample_solutions (min 5 pop.length) pop s with ⟨tour, s2⟩
  simp only [hsamp] at h
  cases tour with
  | nil => cases h
  | cons y ys =>
    injection h with h2
    injection h2 with h3 h4
    have hmem : python_max y ys ∈ y :: ys := by
      rcases python_max_mem ys y with hh | hh
      · rw [hh]; exact List.mem_cons_self _ _
      · exact List.mem_cons_of_mem _ hh
    rw [h3] at hmem
    have hsub : ∀ z ∈ (sample_solutions (min 5 pop.length) pop s).1, z ∈ pop :=
      sample_solutions_mem _ _ _
    apply hsub
    rw [hsamp]
    exact hmem

/-- Crossover children only carry periods of their parents. -/
lemma crossover_children_mem (p1 p2 : TimetableSolution) (s : RState)
    (c1 c2 : TimetableSolution) (s1 : RState)
    (h : crossover p1 p2 s = .ok ((c1, c2), s1)) :
    (∀ p ∈ c1.periods, p ∈ p1.periods ∨ p ∈ p2.periods) ∧
    (∀ p ∈ c2.periods, p ∈ p1.periods ∨ p ∈ p2.periods) := by
  rw [crossover] at h
  cases hri : randint 1 (min p1.periods.length p2.periods.length - 1) s with
  | error e => rw [hri] at h; cases h
  | ok v =>
    obtain ⟨k, s2⟩ := v
    simp only [hri] at h
    injection h with h2
    injection h2 with h3 h4
    injection h3 with hc1 hc2
    subst hc1 hc2
    constructor <;> intro p hp <;> rcases List.mem_append.1 hp with h1 | h2
    · exact Or.inl (List.mem_of_mem_take h1)
    · exact Or.inr (List.mem_of_mem_drop h2)
    · exact Or.inr (List.mem_of_mem_take h1)
    · exact Or.inl (List.mem_of_mem_drop h2)

/-- Both children of one offspring pass satisfy the window invariant
whenever the whole population does. -/
lemma make_children_window (g : Generator) (pp : GAParams)
    (pop : List TimetableSolution) (s : RState)
    (c1 c2 : TimetableSolution) (s1 : RState)
    (hpop : PopWindowOK g pop)
    (h : make_children g pp pop s = .ok ((c1, c2), s1)) :
    SolutionWindowOK g c1 ∧ SolutionWindowOK g c2 := by
  rw [make_children] at h
  cases ht1 : tournament_selection pop s with
  | error e => rw [ht1] at h; cases h
  | ok v1 =>
    obtain ⟨p1, s2⟩ := v1
    simp only [ht1] at h
    cases ht2 : tournament_selection pop s2 with
    | error e => rw [ht2] at h; cases h
    | ok v2 =>
      obtain ⟨p2, s3⟩ := v2
      simp only [ht2] at h
      have hp1 : SolutionWindowOK g p1 := hpop _ (tournament_mem _ _ _ _ ht1)
      have hp2 : SolutionWindowOK g p2 := hpop _ (tournament_mem _ _ _ _ ht2)
      rcases hbc : rand_event pp.crossover_rate s3 with ⟨bc, s4⟩
      simp only [hbc] at h
      cases hcc : (if bc then crossover p1 p2 s4 else .ok ((p1, p2), s4)) with
      | error e => rw [hcc] at h; cases h
      | ok vcc =>
        obtain ⟨⟨d1, d2⟩, s5⟩ := vcc
        simp only [hcc] at h
        have hdd : SolutionWindowOK g d1 ∧ SolutionWindowOK g d2 := by
          by_cases hb : bc
          · rw [if_pos hb] at hcc
            obtain ⟨hm1, hm2⟩ := crossover_children_mem p1 p2 s4 d1 d2 s5 hcc
            constructor <;> intro p hp
            · rcases hm1 p hp with hh | hh
              exacts [hp1 p hh, hp2 p hh]
            · rcases hm2 p hp with hh | hh
              exacts [hp1 p hh, hp2 p hh]
          · rw [if_neg hb] at hcc
            injection hcc with h2
            injection h2 with h3 h4
            injection h3 with hd1 hd2
            subst hd1 hd2
            exact ⟨hp1, hp2⟩
        rcases hbm1 : rand_event pp.mutation_rate s5 with ⟨bm1, s6⟩
        simp only [hbm1] at h
        cases hmu1 : (if bm1 then mutate g d1 s6 else .ok (d1, s6)) with
        | error e => rw [hmu1] at h; cases h
        | ok vm1 =>
          obtain ⟨e1, s7⟩ := vm1
          simp only [hmu1] at h
          have he1 : SolutionWindowOK g e1 := by
            by_cases hb : bm1
            · rw [if_pos hb] at hmu1
              intro q hq
              obtain ⟨pq, hpq, hproj, _, _⟩ :=
                (mutate_props g d1 s6 e1 s7 hmu1).2.2 q hq
              exact window_of_proj6 g hproj (hdd.1 pq hpq)
            · rw [if_neg hb] at hmu1
              injection hmu1 with h2
              injection h2 with h3 h4
              subst h3
              exact hdd.1
          rcases hbm2 : rand_event pp.mutation_rate s7 with ⟨bm2, s8⟩
          simp only [hbm2] at h
          cases hmu2 : (if bm2 then mutate g d2 s8 else .ok (d2, s8)) with
          | error e => rw [hmu2] at h; cases h
          | ok vm2 =>
            obtain ⟨e2, s9⟩ := vm2
            simp only [hmu2] at h
            have he2 : SolutionWindowOK g e2 := by
              by_cases hb : bm2
              · rw [if_pos hb] at hmu2
                intro q hq
                obtain ⟨pq, hpq, hproj, _, _⟩ :=
                  (mutate_props g d2 s8 e2 s9 hmu2).2.2 q hq
                exact window_of_proj6 g hproj (hdd.2 pq hpq)
              · rw [if_neg hb] at hmu2
                injection hmu2 with h2
                injection h2 with h3 h4
                subst h3
                exact hdd.2
            injection h with h2
            injection h2 with h3 h4
            injection h3 with hc1 hc2
            subst hc1 hc2
            exact ⟨fun q hq => he1 q hq, fun q hq => he2 q hq⟩

/-- The offspring loop preserves the window invariant. -/
lemma fill_offspring_window (g : Generator) (pp : GAParams)
    (pop : List TimetableSolution) (hpop : PopWindowOK g pop) :
    ∀ (fuel : Nat) (newPop : List TimetableSolution) (s : RState)
      (res : List TimetableSolution) (s1 : RState),
      PopWindowOK g newPop →
      fill_offspring g pp pop fuel newPop s = .ok (res, s1) →
      PopWindowOK g res := by
  intro fuel
  induction fuel with
  | zero =>
    intro newPop s res s1 hnew h
    rw [fill_offspring] at h
    injection h with h2
    injection h2 with h3 h4
    subst h3
    exact hnew
  | succ fuel ih =>
    intro newPop s res s1 hnew h
    rw [fill_offspring] at h
    split at h
    · cases hmc : make_children g pp pop s with
      | error e => rw [hmc] at h; cases h
      | ok v =>
        obtain ⟨⟨c1, c2⟩, s2⟩ := v
        rw [hmc] at h
        obtain ⟨hc1, hc2⟩ := make_children_window g pp pop s c1 c2 s2 hpop hmc
        apply ih _ _ _ _ ?_ h
        intro sol hsol
        rcases List.mem_append.1 hsol with h1 | h2
        · exact hnew _ h1
        · rcases List.mem_cons.1 h2 with rfl | h3
          · exact hc1
          · rcases List.mem_cons.1 h3 with rfl | h4
            · exact hc2
            · simp at h4
    · injection h with h2
      injection h2 with h3 h4
      subst h3
      exact hnew

/-- One generation step preserves the window invariant. -/
lemma generation_step_window (g : Generator) (pp : GAParams)
    (pop : List TimetableSolution) (s : RState)
    (pop1 : List TimetableSolution) (s1 : RState)
    (hpop : PopWindowOK g pop)
    (h : generation_step g pp pop s = .ok (pop1, s1)) : PopWindowOK g pop1 := by
  rw [generation_step] at h
  cases hf : fill_offspring g pp pop pp.population_size
      (pop.take pp.elite_size) s with
  | error e => rw [hf] at h; cases h
  | ok v =>
    obtain ⟨newPop, s2⟩ := v
    rw [hf] at h
    injection h with h2
    injection h2 with h3 h4
    have hnp : PopWindowOK g newPop := by
      apply fill_offspring_window g pp pop hpop _ _ _ _ _ ?_ hf
      intro sol hs
      exact hpop sol (List.mem_of_mem_take hs)
    intro sol hsol
    rw [← h3] at hsol
    have hmem := (sort_by_fitness_perm _).mem_iff.1 hsol
    exact hnp sol (List.mem_of_mem_take hmem)

/-- The whole evolution loop preserves the window invariant. -/
lemma generate_loop_window (g : Generator) (pp : GAParams) :
    ∀ (n : Nat) (pop : List TimetableSolution) (s : RState)
      (res : List TimetableSolution) (s1 : RState),
      PopWindowOK g pop →
      generate_loop g pp n pop s = .ok (res, s1) →
      PopWindowOK g res := by
  intro n
  induction n with
  | zero =>
    intro pop s res s1 hpop h
    rw [generate_loop] at h
    injection h with h2
    injection h2 with h3 h4
    subst h3
    exact hpop
  | succ n ih =>
    intro pop s res s1 hpop h
    rw [generate_loop] at h
    cases hstep : generation_step g pp pop s with
    | error e => rw [hstep] at h; cases h
    | ok v =>
      obtain ⟨pop1, s2⟩ := v
      simp only [hstep] at h
      have h1 := generation_step_window g pp pop s pop1 s2 hpop hstep
      cases pop1 with
      | nil => cases h
      | cons best tl =>
        replace h : (if (95/100 : ℚ) ≤ best.fitness_score ∧ best.conflicts = []
            then Except.ok (best :: tl, s2)
            else generate_loop g pp n (best :: tl) s2) = Except.ok (res, s1) := h
        split at h
        · injection h with h2
          injection h2 with h3 h4
          subst h3
          exact h1
        · exact ih _ _ _ _ h1 h

/-- C3 amended: every period of a solution returned by `generate`
starts at or after `school_timing.start_time` and strictly before
its own end, provided the period duration is positive and the whole
day walk (`total_periods` steps of at most `max(duration, 15)`
minutes) stays below midnight.  Containment of the period end within
`school_timing.end_time` does not hold: the initializer never reads
the school end time. -/
theorem generate_window_invariant (g : Generator) (pp : GAParams) (s : RState)
    (best : TimetableSolution) (s1 : RState)
    (hd : 0 < g.school_timing.period_duration_minutes)
    (hb : g.school_timing.start_time + 60 * g.school_timing.total_periods *
      max g.school_timing.period_duration_minutes 15 < 86400)
    (hgen : generate g pp s = .ok (best, s1)) :
    ∀ p ∈ best.periods,
      g.school_timing.start_time ≤ p.start_time ∧ p.start_time < p.end_time := by
  rw [generate] at hgen
  cases hinit : initialize_population g pp.population_size s with
  | error e => rw [hinit] at hgen; cases hgen
  | ok v =>
    obtain ⟨pop0, s2⟩ := v
    simp only [hinit] at hgen
    have hpop0 : PopWindowOK g pop0 :=
      initialize_population_window g hd hb _ s pop0 s2 hinit
    have hpop1 : PopWindowOK g (sort_by_fitness (pop0.map (evaluate g))) := by
      intro sol hsol
      have hmem := (sort_by_fitness_perm _).mem_iff.1 hsol
      obtain ⟨sol0, hs0, rfl⟩ := List.mem_map.1 hmem
      intro p hp
      exact hpop0 sol0 hs0 p hp
    cases hloop : generate_loop g pp pp.generations
        (sort_by_fitness (pop0.map (evaluate g))) s2 with
    | error e => rw [hloop] at hgen; cases hgen
    | ok v2 =>
      obtain ⟨popF, s3⟩ := v2
      simp only [hloop] at hgen
      have hpopF := generate_loop_window g pp _ _ _ _ _ hpop1 hloop
      cases popF with
      | nil => cases hgen
      | cons b tl =>
        injection hgen with h2
        injection h2 with h3 h4
        subst h3
        intro p hp
        exact hpopF b (List.mem_cons_self _ _) p hp

/-- C3 counterexample: on `g_c3` (school end 09:00, two 45-minute
periods from 08:00) `generate` returns a solution whose second
period ends 09:30, violating containment in the teaching window. -/
theorem generate_window_counterexample :
    generate g_c3 pp_one ⟨fun _ => 0, 0⟩ = .ok (best_c3, ⟨fun _ => 0, 6⟩) ∧
    ¬ (∀ p ∈ best_c3.periods, p.start_time < p.end_time ∧
        g_c3.school_timing.start_time ≤ p.start_time ∧
        p.end_time ≤ g_c3.school_timing.end_time) := by
  constructor
  · norm_num [generate, generate_loop, generation_step, fill_offspring,
      make_children, tournament_selection, sample_solutions, python_max, crossover,
      randint, rand_event, draw, mutate, initialize_population, init_sections,
      init_days, init_day, section_subject_ids, school_days, g_c3, pp_one,
      extract_days_from_bitmask, is_break_time, add_minutes, rand_choice,
      select_teacher_for_subject, select_room, eligible_teachers, available_rooms,
      evaluate, calculate_fitness, detect_conflicts, detect_teacher_overlaps,
      detect_room_double_bookings, detect_constraint_violations, teacher_overlaps_go,
      room_bookings_go, group_by_key, insert_group, teacher_groups,
      calculate_distribution_score, calculate_workload_balance, dist_penalty_days,
      sort_by_fitness, insert_desc, sched_find, tkey, best_c3, max_def, min_def]
  · decide

/-- Witness for C3 at the minimal configuration. -/
theorem generate_window_invariant_witness :
    0 < g_min.school_timing.period_duration_minutes ∧
    g_min.school_timing.start_time + 60 * g_min.school_timing.total_periods *
      max g_min.school_timing.period_duration_minutes 15 < 86400 ∧
    ∀ p ∈ best_w3.periods,
      g_min.school_timing.start_time ≤ p.start_time ∧ p.start_time < p.end_time :=
  ⟨by decide, by decide,
   generate_window_invariant g_min pp_one ⟨fun _ => 0, 0⟩ best_w3 ⟨fun _ => 0, 3⟩
     (by decide) (by decide)
     (by norm_num [generate, generate_loop, generation_step, fill_offspring,
       make_children, tournament_selection, sample_solutions, python_max, crossover,
       randint, rand_event, draw, mutate, initialize_population, init_sections,
       init_days, init_day, section_subject_ids, school_days, g_min, pp_one,
       extract_days_from_bitmask, is_break_time, add_minutes, rand_choice,
       select_teacher_for_subject, select_room, eligible_teachers, available_rooms,
       evaluate, calculate_fitness, detect_conflicts, detect_teacher_overlaps,
       detect_room_double_bookings, detect_constraint_violations, teacher_overlaps_go,
       room_bookings_go, group_by_key, insert_group, teacher_groups,
       calculate_distribution_score, calculate_workload_balance, dist_penalty_days,
       sort_by_fitness, insert_desc, sched_find, tkey, best_w3, max_def, min_def])⟩

/-- Witness for C10: the two-period parents recombine, the
one-period parents raise. -/
theorem crossover_total_iff_witness :
    (∃ k s1, crossover sol_two_a sol_two_b ⟨fun _ => 0, 0⟩ =
        .ok ((⟨sol_two_a.periods.take k ++ sol_two_b.periods.drop k, 0, []⟩,
              ⟨sol_two_b.periods.take k ++ sol_two_a.periods.drop k, 0, []⟩), s1) ∧
      1 ≤ k ∧ k ≤ min sol_two_a.periods.length sol_two_b.periods.length - 1 ∧
      (sol_two_a.periods.take k ++ sol_two_b.periods.drop k).length =
        sol_two_b.periods.length ∧
      (sol_two_b.periods.take k ++ sol_two_a.periods.drop k).length =
        sol_two_a.periods.length) ∧
    crossover sol_one sol_one ⟨fun _ => 0, 0⟩ = .error "empty range for randrange()" :=
  ⟨(crossover_total_iff sol_two_a sol_two_b ⟨fun _ => 0, 0⟩).1 (by decide),
   (crossover_total_iff sol_one sol_one ⟨fun _ => 0, 0⟩).2.1 (by decide)⟩

end TTG
